import Mathlib

/-!
Verification of the train-route network core (`RouteData` in
`map_germany_plz_integrated_ui.py` and `RouteBranch`/`RouteManager` in
`route_branching.py`).

The Python classes are shallowly embedded:
* Python dicts become insertion-ordered association lists (`getKey?`,
  `setKey`, `eraseKey` mirror `d[k]`, `d[k] = v`, `del d[k]`);
* Python sets of pairs become duplicate-free lists (`addToSet`, `discardFromSet`);
* machine integers become `Int` (Python ints are unbounded anyway);
* coordinates become `ℚ × ℚ` (longitude, latitude); the numeric travel-time
  estimator itself uses floating point and is kept abstract as a function
  parameter `est` where an operation merely forwards to it;
* `uuid.uuid4()` branch identifiers become a fresh-counter `next_id`
  (identifiers are opaque and fresh, which is all the code relies on);
* recursive traversals take an explicit fuel argument large enough to
  cover every reachable call depth.

City names are kept abstract (`α` with a linear order, matching Python's
string comparison used by `tuple(sorted([city1, city2]))`).
-/

section AssocList

variable {κ : Type} {β : Type} [DecidableEq κ]

/-- Dict lookup `d.get(k)` / `k in d` on an insertion-ordered assoc list. -/
def getKey? : List (κ × β) → κ → Option β
  | [], _ => none
  | (k', v) :: t, k => if k' = k then some v else getKey? t k

/-- Dict assignment `d[k] = v`: update in place if present, else append. -/
def setKey : List (κ × β) → κ → β → List (κ × β)
  | [], k, v => [(k, v)]
  | (k', v') :: t, k, v => if k' = k then (k, v) :: t else (k', v') :: setKey t k v

/-- Dict deletion `d.pop(k, None)` / `del d[k]` (removes the first binding). -/
def eraseKey : List (κ × β) → κ → List (κ × β)
  | [], _ => []
  | (k', v') :: t, k => if k' = k then t else (k', v') :: eraseKey t k

end AssocList

section SetOps

variable {γ : Type} [DecidableEq γ]

/-- Python `set.add`. -/
def addToSet (l : List γ) (x : γ) : List γ := if x ∈ l then l else l ++ [x]

/-- Python `set.discard`. -/
def discardFromSet (l : List γ) (x : γ) : List γ := l.filter (fun y => y ≠ x)

end SetOps

/-- The five train classes of `TRAIN_TYPES`. -/
inductive TrainType where
  | ICE | IC | RE | RB | S
deriving DecidableEq, Repr

/-- `DEFAULT_TRAIN_TYPE = "RE"`. -/
def DEFAULT_TRAIN_TYPE : TrainType := .RE

/-- `tuple(sorted([city1, city2]))` (Python's `sorted` on a 2-list). -/
def sortedPair {α : Type} [LinearOrder α] (c1 c2 : α) : α × α :=
  if c1 ≤ c2 then (c1, c2) else (c2, c1)

/-- The mutable state of the `RouteData` class: cities (name → lon/lat),
connection list, custom travel times, per-connection train types, the
daybreak set and the travel-time cache.  `route_chain_names` maps a chain
index (as a decimal string, the Python code uses `str(i)`) to a name. -/
structure RouteData (α : Type) where
  cities : List (α × (ℚ × ℚ)) := []
  connections : List (α × α) := []
  travel_times_data : List ((α × α) × Int) := []
  connection_train_types : List ((α × α) × TrainType) := []
  daybreak_connections : List (α × α) := []
  route_chain_names : List (String × String) := []
  travel_time_cache : List ((α × α) × String) := []
deriving Repr, Inhabited, DecidableEq

namespace RouteData

variable {α : Type} [LinearOrder α]

/-- `RouteData.mark_daybreak`: `self.daybreak_connections.add((city1, city2))`. -/
def mark_daybreak (s : RouteData α) (city1 city2 : α) : RouteData α :=
  { s with daybreak_connections := addToSet s.daybreak_connections (city1, city2) }

/-- `RouteData.unmark_daybreak`: `self.daybreak_connections.discard((city1, city2))`. -/
def unmark_daybreak (s : RouteData α) (city1 city2 : α) : RouteData α :=
  { s with daybreak_connections := discardFromSet s.daybreak_connections (city1, city2) }

/-- `RouteData.is_daybreak`: membership of either orientation in the set. -/
def is_daybreak (s : RouteData α) (city1 city2 : α) : Bool :=
  decide ((city1, city2) ∈ s.daybreak_connections) ||
  decide ((city2, city1) ∈ s.daybreak_connections)

/-- `RouteData.get_train_type`. -/
def get_train_type (s : RouteData α) (city1 city2 : α) : TrainType :=
  match getKey? s.connection_train_types (city1, city2) with
  | some t => t
  | none =>
    match getKey? s.connection_train_types (city2, city1) with
    | some t => t
    | none => DEFAULT_TRAIN_TYPE

/-- `RouteData.update_travel_time`: sets a custom travel time when a
connection exists in either orientation (no validation of `minutes`),
invalidating the cache entry for the sorted pair; returns `False`
(state unchanged) otherwise. -/
def update_travel_time (s : RouteData α) (city1 city2 : α) (minutes : Int) :
    Bool × RouteData α :=
  if (city1, city2) ∈ s.connections then
    (true, { s with
      travel_times_data := setKey s.travel_times_data (city1, city2) minutes
      travel_time_cache := eraseKey s.travel_time_cache (sortedPair city1 city2) })
  else if (city2, city1) ∈ s.connections then
    (true, { s with
      travel_times_data := setKey s.travel_times_data (city2, city1) minutes
      travel_time_cache := eraseKey s.travel_time_cache (sortedPair city2 city1) })
  else
    (false, s)

/-- `RouteData.remove_connection`: removes the first occurrence of the
matched orientation, deletes its train-type binding (same orientation
only) and its cache entry.  `travel_times_data` and
`daybreak_connections` are left untouched by the source. -/
def remove_connection (s : RouteData α) (city1 city2 : α) : Bool × RouteData α :=
  if (city1, city2) ∈ s.connections then
    (true, { s with
      connections := s.connections.erase (city1, city2)
      connection_train_types := eraseKey s.connection_train_types (city1, city2)
      travel_time_cache := eraseKey s.travel_time_cache (sortedPair city1 city2) })
  else if (city2, city1) ∈ s.connections then
    (true, { s with
      connections := s.connections.erase (city2, city1)
      connection_train_types := eraseKey s.connection_train_types (city2, city1)
      travel_time_cache := eraseKey s.travel_time_cache (sortedPair city2 city1) })
  else
    (false, s)

/-- `RouteData.update_city_coordinates`: overwrite an existing city's
coordinates; no cache invalidation happens in the source. -/
def update_city_coordinates (s : RouteData α) (city_name : α) (lon lat : ℚ) :
    Bool × RouteData α :=
  if (getKey? s.cities city_name).isSome then
    (true, { s with cities := setKey s.cities city_name (lon, lat) })
  else
    (false, s)

/-- `city_a = conn[0] if conn[1] == city_name else conn[1]` in `remove_city`. -/
def otherEnd (conn : α × α) (name : α) : α :=
  if conn.2 = name then conn.1 else conn.2

/-- The nested loop of `remove_city` that builds `new_connections` from
the `directly_connected` list `dc`, checking candidate pairs against the
(unmodified) original connection list. -/
def reconnections (name : α) (dc conns : List (α × α)) : List (α × α) :=
  dc.flatMap (fun conn1 =>
    dc.filterMap (fun conn2 =>
      if conn1 ≠ conn2 then
        let a := otherEnd conn1 name
        let b := otherEnd conn2 name
        if (a, b) ∉ conns ∧ (b, a) ∉ conns then some (a, b) else none
      else none))

/-- `RouteData.remove_city`: fails when the city is unknown; otherwise
deletes the city, replaces the connection list by the non-incident
connections followed by the reconnection pairs, drops incident
train-type bindings and invalidates the cache for incident pairs. -/
def remove_city (s : RouteData α) (city_name : α) : Bool × RouteData α :=
  if (getKey? s.cities city_name).isNone then (false, s)
  else
    let dc := s.connections.filter (fun c => c.1 = city_name ∨ c.2 = city_name)
    let newConns := reconnections city_name dc s.connections
    (true, { s with
      cities := eraseKey s.cities city_name
      connections :=
        s.connections.filter (fun c => ¬(c.1 = city_name ∨ c.2 = city_name)) ++ newConns
      connection_train_types :=
        s.connection_train_types.filter
          (fun kv => ¬(kv.1.1 = city_name ∨ kv.1.2 = city_name))
      travel_time_cache :=
        dc.foldl (fun acc c => eraseKey acc (sortedPair c.1 c.2)) s.travel_time_cache })

/-- The `"<h>h <m>m"` / `"<m> min"` rendering of an integer minute count
(`//` and `%` are Python floor division and modulo). -/
def formatMinutes (t : Int) : String :=
  let hours := t.ediv 60
  let minutes := t.emod 60
  if hours > 0 then s!"{hours}h {minutes}m" else s!"{minutes} min"

/-- `RouteData.get_travel_time`.  Checks the cache (keyed by the sorted
pair), then the custom travel times in either orientation (formatting and
caching the result), and otherwise — when both cities exist — returns the
estimator's result directly *without* caching it; `"N/A"` when a city is
missing.  `est` abstracts `estimate_travel_time` (a floating-point
computation whose value the caching logic never inspects). -/
def get_travel_time (est : ℚ × ℚ → ℚ × ℚ → TrainType → String)
    (s : RouteData α) (city1 city2 : α) : String × RouteData α :=
  let key := sortedPair city1 city2
  match getKey? s.travel_time_cache key with
  | some v => (v, s)
  | none =>
    let tOpt :=
      match getKey? s.travel_times_data (city1, city2) with
      | some t => some t
      | none => getKey? s.travel_times_data (city2, city1)
    match tOpt with
    | some t =>
      let f := formatMinutes t
      (f, { s with travel_time_cache := setKey s.travel_time_cache key f })
    | none =>
      match getKey? s.cities city1, getKey? s.cities city2 with
      | some p1, some p2 => (est p1 p2 (get_train_type s city1 city2), s)
      | _, _ => ("N/A", s)

end RouteData

/-! ## Terrain classification (`get_region_from_coordinates`, `get_terrain_factor`)

The geopy reverse-geocoding path is external network I/O (out of scope per
the spec); the embedded functions are the deterministic coordinate
classifier and table lookups the source falls back to. -/

/-- The four terrain kinds of `GEOGRAPHIC_FACTORS`. -/
inductive Terrain where
  | FLAT | HILLS | MOUNTAINS | URBAN
deriving DecidableEq, Repr

/-- `GEOGRAPHIC_FACTORS`. -/
def GEOGRAPHIC_FACTORS : Terrain → ℚ
  | .FLAT => 1.0
  | .HILLS => 1.15
  | .MOUNTAINS => 1.3
  | .URBAN => 1.2

/-- `REGION_TOPOGRAPHY` as a lookup from region name to terrain
(`none` models absence of the key). -/
def REGION_TOPOGRAPHY (r : String) : Option Terrain :=
  if r = "Bayern" then some .MOUNTAINS
  else if r = "Baden-Württemberg" then some .HILLS
  else if r = "Hessen" then some .HILLS
  else if r = "Thüringen" then some .HILLS
  else if r = "Sachsen" then some .HILLS
  else if r = "Rheinland-Pfalz" then some .HILLS
  else if r = "Saarland" then some .HILLS
  else if r = "Nordrhein-Westfalen" then some .FLAT
  else if r = "Niedersachsen" then some .FLAT
  else if r = "Bremen" then some .FLAT
  else if r = "Hamburg" then some .FLAT
  else if r = "Schleswig-Holstein" then some .FLAT
  else if r = "Mecklenburg-Vorpommern" then some .FLAT
  else if r = "Brandenburg" then some .FLAT
  else if r = "Berlin" then some .URBAN
  else if r = "Sachsen-Anhalt" then some .FLAT
  else none

/-- The body of `RouteData.get_region_from_coordinates` (fallback
approximation) on `lat, lon = coords[1], coords[0]`: the bounding boxes
are checked in source order, first match wins, with a three-band
latitude fallback. -/
def regionFromLatLon (lat lon : ℚ) : String :=
  if 47.5 ≤ lat ∧ lat ≤ 49.8 ∧ 8.9 ≤ lon ∧ lon ≤ 13.8 then "Bayern"
  else if 47.5 ≤ lat ∧ lat ≤ 49.8 ∧ 7.5 ≤ lon ∧ lon ≤ 9.8 then "Baden-Württemberg"
  else if 49.3 ≤ lat ∧ lat ≤ 51.5 ∧ 7.7 ≤ lon ∧ lon ≤ 10.2 then "Hessen"
  else if 50.2 ≤ lat ∧ lat ≤ 51.6 ∧ 9.9 ≤ lon ∧ lon ≤ 12.6 then "Thüringen"
  else if 50.1 ≤ lat ∧ lat ≤ 51.7 ∧ 11.8 ≤ lon ∧ lon ≤ 15.0 then "Sachsen"
  else if 48.9 ≤ lat ∧ lat ≤ 50.9 ∧ 6.1 ≤ lon ∧ lon ≤ 8.5 then "Rheinland-Pfalz"
  else if 49.1 ≤ lat ∧ lat ≤ 49.6 ∧ 6.3 ≤ lon ∧ lon ≤ 7.4 then "Saarland"
  else if 50.3 ≤ lat ∧ lat ≤ 52.5 ∧ 5.8 ≤ lon ∧ lon ≤ 9.5 then "Nordrhein-Westfalen"
  else if 51.2 ≤ lat ∧ lat ≤ 54.0 ∧ 6.5 ≤ lon ∧ lon ≤ 11.6 then "Niedersachsen"
  else if 53.0 ≤ lat ∧ lat ≤ 53.6 ∧ 8.4 ≤ lon ∧ lon ≤ 9.0 then "Bremen"
  else if 53.4 ≤ lat ∧ lat ≤ 53.7 ∧ 9.6 ≤ lon ∧ lon ≤ 10.3 then "Hamburg"
  else if 53.3 ≤ lat ∧ lat ≤ 55.1 ∧ 8.4 ≤ lon ∧ lon ≤ 11.3 then "Schleswig-Holstein"
  else if 53.0 ≤ lat ∧ lat ≤ 54.9 ∧ 10.5 ≤ lon ∧ lon ≤ 14.5 then "Mecklenburg-Vorpommern"
  else if 51.3 ≤ lat ∧ lat ≤ 53.6 ∧ 11.2 ≤ lon ∧ lon ≤ 14.8 then "Brandenburg"
  else if 52.3 ≤ lat ∧ lat ≤ 52.7 ∧ 13.0 ≤ lon ∧ lon ≤ 13.8 then "Berlin"
  else if 50.8 ≤ lat ∧ lat ≤ 53.1 ∧ 10.5 ≤ lon ∧ lon ≤ 13.2 then "Sachsen-Anhalt"
  else if 52.0 ≤ lat then "FLAT_REGION"
  else if 50.0 ≤ lat then "HILLY_REGION"
  else "MOUNTAINOUS_REGION"

/-- `RouteData.get_region_from_coordinates`: coordinates are `(lon, lat)`. -/
def get_region_from_coordinates (coords : ℚ × ℚ) : String :=
  regionFromLatLon coords.2 coords.1

/-- `RouteData.get_terrain_factor`: when both regions are in the
topography table, pick by severity priority MOUNTAINS, HILLS, URBAN,
FLAT; otherwise the fixed default `1.15`. -/
def get_terrain_factor (coord1 coord2 : ℚ × ℚ) : ℚ :=
  match REGION_TOPOGRAPHY (get_region_from_coordinates coord1),
        REGION_TOPOGRAPHY (get_region_from_coordinates coord2) with
  | some t1, some t2 =>
    if t1 = .MOUNTAINS ∨ t2 = .MOUNTAINS then GEOGRAPHIC_FACTORS .MOUNTAINS
    else if t1 = .HILLS ∨ t2 = .HILLS then GEOGRAPHIC_FACTORS .HILLS
    else if t1 = .URBAN ∨ t2 = .URBAN then GEOGRAPHIC_FACTORS .URBAN
    else GEOGRAPHIC_FACTORS .FLAT
  | _, _ => 1.15

/-! ## Chain decomposition (`RouteData.get_route_chains`) -/

namespace RouteData

variable {α : Type} [LinearOrder α]

/-- The adjacency list built by `get_route_chains`: for each connection
`(c1, c2)` in list order, `c2` is appended to `adj[c1]` and `c1` to
`adj[c2]`. -/
def adjList (conns : List (α × α)) (x : α) : List α :=
  conns.flatMap (fun c =>
    (if c.1 = x then [c.2] else []) ++ (if c.2 = x then [c.1] else []))

/-- `city in adj`: the defaultdict has a key for every city occurring in
some connection (keys created by reads during the walk are themselves
connection endpoints). -/
def adjHasKey (conns : List (α × α)) (x : α) : Bool :=
  conns.any (fun c => c.1 = x ∨ c.2 = x)

/-- The mutable state of `walk_chain`: the explicit stack of
`(node, parent)` entries (top at the head), the shared visited-edge set,
the current chain buffer and the completed chains. -/
structure WalkState (α : Type) where
  stack : List (α × Option α)
  visited : List (α × α)
  chain : List (α × α)
  chains : List (List (α × α))
deriving Repr

/-- One iteration of the inner `for neighbor in adj[node]` loop: skip a
visited edge (either orientation); otherwise record the edge, extend the
chain, flush the chain when the *traversal-oriented* tuple
`(node, neighbor)` is in the daybreak set, and push the far endpoint. -/
def stepNeighbor (daybreaks : List (α × α)) (node : α)
    (st : WalkState α) (neighbor : α) : WalkState α :=
  if (node, neighbor) ∈ st.visited ∨ (neighbor, node) ∈ st.visited then st
  else
    let visited := st.visited ++ [(node, neighbor)]
    let chain := st.chain ++ [(node, neighbor)]
    if (node, neighbor) ∈ daybreaks then
      { stack := (neighbor, some node) :: st.stack, visited := visited,
        chain := [], chains := st.chains ++ [chain] }
    else
      { stack := (neighbor, some node) :: st.stack, visited := visited,
        chain := chain, chains := st.chains }

/-- The `while stack:` loop of `walk_chain` (fuel bounds the number of
pops; each push marks a fresh edge visited, so `2 * |connections| + 2`
pops always suffice). -/
def walkLoop (daybreaks conns : List (α × α)) : Nat → WalkState α → WalkState α
  | 0, st => st
  | fuel + 1, st =>
    match st.stack with
    | [] => st
    | (node, _) :: rest =>
      walkLoop daybreaks conns fuel
        ((adjList conns node).foldl (stepNeighbor daybreaks node)
          { st with stack := rest })

/-- `walk_chain(start)`: run the loop from a single stack entry and emit
any non-empty trailing buffer; returns the updated shared visited-edge
set together with the accumulated chains. -/
def walk_chain (daybreaks conns : List (α × α)) (start : α)
    (visited : List (α × α)) (chains : List (List (α × α))) :
    List (α × α) × List (List (α × α)) :=
  let st := walkLoop daybreaks conns (2 * conns.length + 2)
    { stack := [(start, none)], visited := visited, chain := [], chains := chains }
  (st.visited, st.chains ++ if st.chain.isEmpty then [] else [st.chain])

/-- One iteration of the outer `for city in self.cities` loop of
`get_route_chains`: walk from `city` when it is not yet an endpoint of a
visited edge and occurs in some connection. -/
def chainStep (daybreaks conns : List (α × α))
    (acc : List (α × α) × List (List (α × α))) (city : α) :
    List (α × α) × List (List (α × α)) :=
  if city ∉ acc.1.flatMap (fun p => [p.1, p.2]) ∧ adjHasKey conns city then
    walk_chain daybreaks conns city acc.1 acc.2
  else acc

/-- `RouteData.get_route_chains`: start a walk from every city (in
insertion order) that is not yet an endpoint of a visited edge and occurs
in some connection. -/
def get_route_chains (s : RouteData α) : List (List (α × α)) :=
  ((s.cities.map Prod.fst).foldl
    (chainStep s.daybreak_connections s.connections) ([], [])).2

end RouteData

/-! ## Route branching (`route_branching.py`) -/

/-- `BRANCH_COLORS`. -/
def BRANCH_COLORS : List String :=
  ["#3498db", "#e74c3c", "#2ecc71", "#f39c12",
   "#9b59b6", "#1abc9c", "#d35400", "#34495e"]

/-- `BRANCH_LINE_STYLES` (matplotlib dash tuples `(offset, on-off list)`). -/
def BRANCH_LINE_STYLES : List (Nat × List Nat) :=
  [(0, []), (0, [5, 5]), (0, [1, 1]), (0, [3, 5, 1, 5])]

/-- `MAX_HISTORY_SIZE`. -/
def MAX_HISTORY_SIZE : Nat := 100

/-- A `RouteBranch`: identifier, name, lineage links, owned segment list
and presentation attributes.  `secondary_parent` models the only key the
source ever stores in `metadata` (`"secondary_parent"` on merge results). -/
structure RouteBranch (α : Type) where
  id : Nat
  name : String
  parent_id : Option Nat := none
  child_ids : List Nat := []
  route_segments : List (α × α) := []
  color : String := ""
  line_style : Nat × List Nat := (0, [])
  secondary_parent : Option Nat := none
deriving Repr, DecidableEq

namespace RouteBranch

variable {α : Type} [DecidableEq α]

/-- `RouteBranch.add_segment`: append unless the unordered pair is
already present. -/
def add_segment (b : RouteBranch α) (city1 city2 : α) : RouteBranch α :=
  if (city1, city2) ∉ b.route_segments ∧ (city2, city1) ∉ b.route_segments then
    { b with route_segments := b.route_segments ++ [(city1, city2)] }
  else b

/-- `RouteBranch.contains_city`. -/
def contains_city (b : RouteBranch α) (city : α) : Bool :=
  b.route_segments.any (fun s => s.1 = city ∨ s.2 = city)

/-- `RouteBranch.get_connected_cities`. -/
def get_connected_cities (b : RouteBranch α) (city : α) : List α :=
  b.route_segments.filterMap (fun s =>
    if s.1 = city then some s.2
    else if s.2 = city then some s.1
    else none)

end RouteBranch

/-- The `RouteManager` state: branch dict, linear snapshot history
(each entry a deep copy of the route data plus its description), history
pointer, active branch, round-robin color/style indices and the fresh-id
counter standing in for `uuid4`. -/
structure RouteManager (α : Type) where
  route_data : RouteData α
  branches : List (Nat × RouteBranch α) := []
  history : List (RouteData α × String) := []
  history_position : Int := -1
  active_branch_id : Option Nat := none
  color_index : Nat := 0
  style_index : Nat := 0
  next_id : Nat := 0
deriving Repr

namespace RouteManager

variable {α : Type} [LinearOrder α]

/-- `RouteManager.save_state`: truncate redo entries when the pointer is
not at the end, append a snapshot of the current route data, and trim to
the last `MAX_HISTORY_SIZE` entries, re-pointing at the final entry. -/
def save_state (m : RouteManager α) (description : String) : RouteManager α :=
  let hist :=
    (if m.history_position < (m.history.length : Int) - 1 then
      m.history.take (m.history_position + 1).toNat
    else m.history) ++ [(m.route_data, description)]
  let hist2 :=
    if hist.length > MAX_HISTORY_SIZE then
      hist.drop (hist.length - MAX_HISTORY_SIZE)
    else hist
  { m with history := hist2, history_position := (hist2.length : Int) - 1 }

/-- `RouteManager.can_undo`. -/
def can_undo (m : RouteManager α) : Bool := m.history_position > 0

/-- `RouteManager.can_redo`. -/
def can_redo (m : RouteManager α) : Bool :=
  m.history_position < (m.history.length : Int) - 1

/-- `RouteManager.undo`: decrement the pointer and replace the route data
by a deep copy of the snapshot there; fails (state unchanged) when the
pointer is at index 0. -/
def undo (m : RouteManager α) : Bool × RouteManager α :=
  if ¬ m.can_undo then (false, m)
  else
    let pos := m.history_position - 1
    (true, { m with history_position := pos,
                    route_data := (m.history.getD pos.toNat default).1 })

/-- `RouteManager.redo`: increment the pointer and restore the snapshot
there; fails when the pointer is at the last index. -/
def redo (m : RouteManager α) : Bool × RouteManager α :=
  if ¬ m.can_redo then (false, m)
  else
    let pos := m.history_position + 1
    (true, { m with history_position := pos,
                    route_data := (m.history.getD pos.toNat default).1 })

/-- The recursive `dfs(start_city, component)` of `split_route`, on the
state `(visited, component)`; never crosses the split city. -/
def splitDFS (segs : List (α × α)) (city : α) :
    Nat → List α × List α → α → List α × List α
  | 0, vc, _ => vc
  | fuel + 1, vc, start =>
    if start ∈ vc.1 ∨ start = city then vc
    else
      let vc0 := (start :: vc.1, start :: vc.2)
      segs.foldl (fun acc seg =>
        if seg.1 = start ∧ seg.2 ∉ acc.1 ∧ seg.2 ≠ city then
          splitDFS segs city fuel acc seg.2
        else if seg.2 = start ∧ seg.1 ∉ acc.1 ∧ seg.1 ≠ city then
          splitDFS segs city fuel acc seg.1
        else acc) vc0

/-- The component-collection loop of `split_route`: DFS from each
neighbor of the split city not yet visited, keeping non-empty components. -/
def splitComponents (segs : List (α × α)) (city : α) (connected : List α) :
    List (List α) :=
  (connected.foldl (fun (st : List α × List (List α)) c =>
    if c ∉ st.1 then
      let vc := splitDFS segs city (2 * segs.length + 1) (st.1, []) c
      if vc.2 ≠ [] then (vc.1, st.2 ++ [vc.2]) else (vc.1, st.2)
    else st) ([], [])).2

/-- The segment-distribution loop of `split_route`: each segment goes to
`branch1` when its deciding endpoint lies in component 0, else to
`branch2`; segments matching no component are dropped. -/
def distributeSegments (segs : List (α × α)) (city : α)
    (comps : List (List α)) (b1 b2 : RouteBranch α) :
    RouteBranch α × RouteBranch α :=
  segs.foldl (fun (bb : RouteBranch α × RouteBranch α) seg =>
    let put := fun (i : Nat) =>
      if i = 0 then (bb.1.add_segment seg.1 seg.2, bb.2)
      else (bb.1, bb.2.add_segment seg.1 seg.2)
    if seg.1 = city ∨ seg.2 = city then
      if seg.1 = city then
        match comps.findIdx? (fun comp => decide (seg.2 ∈ comp)) with
        | some i => put i
        | none => bb
      else
        match comps.findIdx? (fun comp => decide (seg.1 ∈ comp)) with
        | some i => put i
        | none => bb
    else
      match comps.findIdx? (fun comp => decide (seg.1 ∈ comp ∧ seg.2 ∈ comp)) with
      | some i => put i
      | none => bb) (b1, b2)

end RouteManager

namespace RouteManager

variable {α : Type} [LinearOrder α] [ToString α]

/-- `RouteManager.split_route`.  Mirrors the source's control flow: the
two child branch records are created, registered in the branch dict and
appended to the parent's child list, and the color/style counters
advanced, *before* the connected components are computed — so the
"would not create separate branches" failure leaves those registrations
behind (with empty segment lists), while the active branch pointer and
history are only touched on success. -/
def split_route (m : RouteManager α) (branch_id : Nat) (city : α) :
    Bool × RouteManager α :=
  match getKey? m.branches branch_id with
  | none => (false, m)
  | some parent =>
    if ¬ parent.contains_city city then (false, m)
    else
      let connected := parent.get_connected_cities city
      if connected.length < 2 then (false, m)
      else
        let id1 := m.next_id
        let id2 := m.next_id + 1
        let b1 : RouteBranch α :=
          { id := id1, name := parent.name ++ "-A", parent_id := some parent.id,
            color := BRANCH_COLORS.getD (m.color_index % BRANCH_COLORS.length) "",
            line_style :=
              BRANCH_LINE_STYLES.getD (m.style_index % BRANCH_LINE_STYLES.length) (0, []) }
        let si1 := (m.style_index + 1) % BRANCH_LINE_STYLES.length
        let b2 : RouteBranch α :=
          { id := id2, name := parent.name ++ "-B", parent_id := some parent.id,
            color := BRANCH_COLORS.getD ((m.color_index + 1) % BRANCH_COLORS.length) "",
            line_style := BRANCH_LINE_STYLES.getD (si1 % BRANCH_LINE_STYLES.length) (0, []) }
        let si2 := (si1 + 1) % BRANCH_LINE_STYLES.length
        let branches :=
          setKey (setKey (setKey m.branches id1 b1) id2 b2) branch_id
            { parent with child_ids := parent.child_ids ++ [id1, id2] }
        let m1 := { m with branches := branches, color_index := m.color_index + 2,
                           style_index := si2, next_id := m.next_id + 2 }
        let comps := splitComponents parent.route_segments city connected
        if comps.length < 2 then (false, m1)
        else
          let bb := distributeSegments parent.route_segments city comps b1 b2
          let m2 := { m1 with
            branches := setKey (setKey m1.branches id1 bb.1) id2 bb.2,
            active_branch_id := some id1 }
          (true, save_state m2 ("Split route at " ++ toString city))

/-- `RouteManager.merge_branches`: new branch from the unordered-pair
union of both branches' segments plus the connecting edge; registered as
a child of both inputs, with branch 1 as primary and branch 2 as
secondary parent; set active; snapshot.  The two child-list updates read
the dict sequentially, mirroring Python's object aliasing. -/
def merge_branches (m : RouteManager α) (branch1_id branch2_id : Nat)
    (city1 city2 : α) : Bool × RouteManager α :=
  match getKey? m.branches branch1_id, getKey? m.branches branch2_id with
  | some branch1, some branch2 =>
    if ¬ branch1.contains_city city1 then (false, m)
    else if ¬ branch2.contains_city city2 then (false, m)
    else
      let mid := m.next_id
      let seed : RouteBranch α :=
        { id := mid, name := branch1.name ++ "-" ++ branch2.name ++ "-merged",
          parent_id := some branch1.id, secondary_parent := some branch2.id,
          color := BRANCH_COLORS.getD (m.color_index % BRANCH_COLORS.length) "",
          line_style :=
            BRANCH_LINE_STYLES.getD (m.style_index % BRANCH_LINE_STYLES.length) (0, []) }
      let merged := branch1.route_segments.foldl
        (fun b seg => b.add_segment seg.1 seg.2) seed
      let merged := branch2.route_segments.foldl
        (fun b seg => b.add_segment seg.1 seg.2) merged
      let merged := merged.add_segment city1 city2
      let branches := setKey m.branches mid merged
      let branches :=
        match getKey? branches branch1_id with
        | some b => setKey branches branch1_id { b with child_ids := b.child_ids ++ [mid] }
        | none => branches
      let branches :=
        match getKey? branches branch2_id with
        | some b => setKey branches branch2_id { b with child_ids := b.child_ids ++ [mid] }
        | none => branches
      let m1 := { m with branches := branches, active_branch_id := some mid,
                         color_index := m.color_index + 1,
                         style_index := (m.style_index + 1) % BRANCH_LINE_STYLES.length,
                         next_id := m.next_id + 1 }
      (true, save_state m1 ("Merged " ++ branch1.name ++ " and " ++ branch2.name))
  | _, _ => (false, m)

/-- `RouteManager.update_route_data`: replace the route data's connection
list by the active branch's segments (skipping unordered duplicates),
then snapshot. -/
def update_route_data (m : RouteManager α) : Bool × RouteManager α :=
  match m.active_branch_id with
  | none => (false, m)
  | some aid =>
    match getKey? m.branches aid with
    | none => (false, m)
    | some active =>
      let conns := active.route_segments.foldl
        (fun acc seg =>
          if (seg.1, seg.2) ∉ acc ∧ (seg.2, seg.1) ∉ acc then acc ++ [seg] else acc) []
      let m1 := { m with route_data := { m.route_data with connections := conns } }
      (true, save_state m1 "Updated route data from active branch")

end RouteManager

/-! ## Association-list and pair lemmas -/

section AssocLemmas

variable {κ : Type} {β : Type} [DecidableEq κ]

theorem getKey?_setKey_self (l : List (κ × β)) (k : κ) (v : β) :
    getKey? (setKey l k v) k = some v := by
  induction l with
  | nil => simp [setKey, getKey?]
  | cons hd t ih =>
    obtain ⟨k', v'⟩ := hd
    by_cases hk : k' = k
    · simp [setKey, hk, getKey?]
    · simp [setKey, hk, getKey?, ih]

theorem getKey?_setKey_ne (l : List (κ × β)) (k k' : κ) (v : β) (h : k ≠ k') :
    getKey? (setKey l k v) k' = getKey? l k' := by
  induction l with
  | nil => simp [setKey, getKey?, h]
  | cons hd t ih =>
    obtain ⟨k0, v0⟩ := hd
    by_cases hk : k0 = k
    · subst hk
      simp [setKey, getKey?, h]
    · simp [setKey, hk, getKey?, ih]

theorem getKey?_eq_none_of_not_mem (l : List (κ × β)) (k : κ)
    (h : k ∉ l.map Prod.fst) : getKey? l k = none := by
  induction l with
  | nil => simp [getKey?]
  | cons hd t ih =>
    simp only [List.map_cons, List.mem_cons, not_or] at h
    simpa [getKey?, Ne.symm h.1] using ih h.2

theorem getKey?_eraseKey_self (l : List (κ × β)) (k : κ)
    (h : (l.map Prod.fst).Nodup) : getKey? (eraseKey l k) k = none := by
  induction l with
  | nil => simp [eraseKey, getKey?]
  | cons hd t ih =>
    obtain ⟨k', v'⟩ := hd
    simp only [List.map_cons, List.nodup_cons] at h
    by_cases hk : k' = k
    · subst hk
      simpa [eraseKey] using getKey?_eq_none_of_not_mem t k' h.1
    · simp [eraseKey, hk, getKey?, ih h.2]

theorem length_setKey_of_none (l : List (κ × β)) (k : κ) (v : β)
    (h : getKey? l k = none) : (setKey l k v).length = l.length + 1 := by
  induction l with
  | nil => simp [setKey]
  | cons hd t ih =>
    obtain ⟨k', v'⟩ := hd
    by_cases hk : k' = k
    · simp [getKey?, hk] at h
    · simp only [getKey?, hk, if_false] at h
      simp [setKey, hk, ih h]

theorem length_setKey_of_some (l : List (κ × β)) (k : κ) (v w : β)
    (h : getKey? l k = some w) : (setKey l k v).length = l.length := by
  induction l with
  | nil => simp [getKey?] at h
  | cons hd t ih =>
    obtain ⟨k', v'⟩ := hd
    by_cases hk : k' = k
    · simp [setKey, hk]
    · simp only [getKey?, hk, if_false] at h
      simp [setKey, hk, ih h]

end AssocLemmas

theorem sortedPair_comm {α : Type} [LinearOrder α] (a b : α) :
    sortedPair a b = sortedPair b a := by
  rcases le_total a b with h | h
  · by_cases h2 : b ≤ a
    · have hab := le_antisymm h h2
      subst hab
      rfl
    · simp [sortedPair, h, h2]
  · by_cases h2 : a ≤ b
    · have hab := le_antisymm h2 h
      subst hab
      rfl
    · simp [sortedPair, h, h2]

/-- Claim C10: `is_daybreak` is order-insensitive; `mark_daybreak(a,b)`
then `unmark_daybreak(a,b)` leaves the (initially unmarked) pair
unmarked, while `mark_daybreak(a,b)` then `unmark_daybreak(b,a)` leaves
`is_daybreak(a,b)` true — `unmark` removes only the exact ordered tuple. -/
theorem daybreak_order_sensitivity {α : Type} [LinearOrder α]
    (s : RouteData α) (a b : α) (hne : a ≠ b) :
    s.is_daybreak a b = s.is_daybreak b a
    ∧ (s.is_daybreak a b = false →
        ((s.mark_daybreak a b).unmark_daybreak a b).is_daybreak a b = false)
    ∧ ((s.mark_daybreak a b).unmark_daybreak b a).is_daybreak a b = true := by
  refine ⟨?_, ?_, ?_⟩
  · simp [RouteData.is_daybreak, Bool.or_comm]
  · intro h
    simp only [RouteData.is_daybreak, Bool.or_eq_false_iff,
      decide_eq_false_iff_not] at h
    obtain ⟨h1, h2⟩ := h
    simp [RouteData.is_daybreak, RouteData.mark_daybreak, RouteData.unmark_daybreak,
      addToSet, discardFromSet, h1, h2, List.mem_filter]
  · have hab : (a, b) ≠ (b, a) := by
      simp [Prod.ext_iff]
      intro h; exact absurd h hne
    by_cases hm : (a, b) ∈ s.daybreak_connections <;>
      simp [RouteData.is_daybreak, RouteData.mark_daybreak,
        RouteData.unmark_daybreak, addToSet, discardFromSet, hm,
        List.mem_filter, hab]

/-- Witness for `daybreak_order_sensitivity` at a concrete state. -/
theorem daybreak_order_sensitivity_witness :
    let s : RouteData ℕ := { daybreak_connections := [(7, 8)] }
    s.is_daybreak 1 2 = s.is_daybreak 2 1
    ∧ (s.is_daybreak 1 2 = false →
        ((s.mark_daybreak 1 2).unmark_daybreak 1 2).is_daybreak 1 2 = false)
    ∧ ((s.mark_daybreak 1 2).unmark_daybreak 2 1).is_daybreak 1 2 = true :=
  daybreak_order_sensitivity _ 1 2 (by decide)

/-- Claim C7 counterexample: on a state whose only connection is `(1, 2)`,
`update_travel_time 1 2 0` succeeds and records the non-positive override
`0` instead of failing with `InvalidInput`. -/
theorem update_travel_time_no_validation :
    let s : RouteData ℕ := { connections := [(1, 2)] }
    (0 : Int) ≤ 0
    ∧ (s.update_travel_time 1 2 0).1 = true
    ∧ getKey? (s.update_travel_time 1 2 0).2.travel_times_data (1, 2) = some 0 := by
  decide

/-- Claim C7 (amended): `update_travel_time` fails (state unchanged) iff
no connection exists for the pair in either order; on a match of the
`(city1, city2)` orientation it succeeds and records the override for
that orientation, with no validation of `minutes` whatsoever. -/
theorem update_travel_time_spec {α : Type} [LinearOrder α]
    (s : RouteData α) (c1 c2 : α) (minutes : Int) :
    (¬((c1, c2) ∈ s.connections ∨ (c2, c1) ∈ s.connections) →
      s.update_travel_time c1 c2 minutes = (false, s))
    ∧ ((c1, c2) ∈ s.connections →
        (s.update_travel_time c1 c2 minutes).1 = true
        ∧ getKey? (s.update_travel_time c1 c2 minutes).2.travel_times_data (c1, c2)
            = some minutes
        ∧ (s.update_travel_time c1 c2 minutes).2.travel_time_cache
            = eraseKey s.travel_time_cache (sortedPair c1 c2)) := by
  constructor
  · intro h
    push_neg at h
    simp [RouteData.update_travel_time, h.1, h.2]
  · intro h
    simp [RouteData.update_travel_time, h, getKey?_setKey_self]

/-- Witness for `update_travel_time_spec`. -/
theorem update_travel_time_spec_witness :
    let s : RouteData ℕ := { connections := [(1, 2)] }
    (s.update_travel_time 1 2 45).1 = true
    ∧ getKey? (s.update_travel_time 1 2 45).2.travel_times_data (1, 2) = some 45
    ∧ (s.update_travel_time 1 2 45).2.travel_time_cache
        = eraseKey s.travel_time_cache (sortedPair 1 2) :=
  (update_travel_time_spec { connections := [(1, 2)] } 1 2 45).2 (by decide)

/-- Claim C4 counterexample: removing the sole connection `(1, 2)` of a
state that also carries a duration override and a break-marker for the
pair succeeds but leaves both the override and the break-marker behind. -/
theorem remove_connection_keeps_override_and_daybreak :
    let s : RouteData ℕ := { connections := [(1, 2)],
                             travel_times_data := [((1, 2), 30)],
                             daybreak_connections := [(1, 2)] }
    (s.remove_connection 1 2).1 = true
    ∧ (s.remove_connection 1 2).2.connections = []
    ∧ getKey? (s.remove_connection 1 2).2.travel_times_data (1, 2) = some 30
    ∧ (1, 2) ∈ (s.remove_connection 1 2).2.daybreak_connections := by
  decide

/-- Claim C4 (amended): `remove_connection` fails (state unchanged) when
neither order is in the connection list; on success the matched
connection is removed (gone entirely when the list has no duplicates and
does not also hold the reverse orientation) and its train-type binding
(matched orientation, assuming duplicate-free keys) is dropped — while
`travel_times_data` and `daybreak_connections` are left untouched. -/
theorem remove_connection_spec {α : Type} [LinearOrder α]
    (s : RouteData α) (c1 c2 : α) :
    (¬((c1, c2) ∈ s.connections ∨ (c2, c1) ∈ s.connections) →
      s.remove_connection c1 c2 = (false, s))
    ∧ ((c1, c2) ∈ s.connections →
        (s.remove_connection c1 c2).1 = true
        ∧ (s.remove_connection c1 c2).2.connections = s.connections.erase (c1, c2)
        ∧ (s.remove_connection c1 c2).2.travel_times_data = s.travel_times_data
        ∧ (s.remove_connection c1 c2).2.daybreak_connections = s.daybreak_connections
        ∧ ((s.connection_train_types.map Prod.fst).Nodup →
            getKey? (s.remove_connection c1 c2).2.connection_train_types (c1, c2) = none)
        ∧ (s.connections.Nodup → (c2, c1) ∉ s.connections →
            (c1, c2) ∉ (s.remove_connection c1 c2).2.connections
            ∧ (c2, c1) ∉ (s.remove_connection c1 c2).2.connections)) := by
  constructor
  · intro h
    push_neg at h
    simp [RouteData.remove_connection, h.1, h.2]
  · intro h
    simp only [RouteData.remove_connection, h, if_true]
    refine ⟨trivial, trivial, trivial, trivial, ?_, ?_⟩
    · intro hnd
      exact getKey?_eraseKey_self _ _ hnd
    · intro hnod hrev
      exact ⟨hnod.not_mem_erase, fun hmem => hrev (List.mem_of_mem_erase hmem)⟩

/-- Witness for `remove_connection_spec`. -/
theorem remove_connection_spec_witness :
    let s : RouteData ℕ := { connections := [(1, 2)],
                             connection_train_types := [((1, 2), .RE)] }
    (s.remove_connection 1 2).1 = true
    ∧ (s.remove_connection 1 2).2.travel_times_data = s.travel_times_data
    ∧ getKey? (s.remove_connection 1 2).2.connection_train_types (1, 2) = none
    ∧ (1, 2) ∉ (s.remove_connection 1 2).2.connections := by
  have h := (remove_connection_spec
    ({ connections := [(1, 2)], connection_train_types := [((1, 2), .RE)] } :
      RouteData ℕ) 1 2).2 (by decide)
  exact ⟨h.1, h.2.2.1, h.2.2.2.2.1 (by decide),
    (h.2.2.2.2.2 (by decide) (by decide)).1⟩

/-- Claim C3 counterexample: on a store holding cities 1 and 2, the
override-derived result for pair `(1,2)` is cached, yet
`update_city_coordinates` leaves that cache entry in place (the claim
requires invalidation on any coordinate change); moreover for a pair
without an override the estimator's result is returned with the state —
and hence the cache — completely unchanged, so repeated queries recompute. -/
theorem travel_time_cache_claim_false :
    let est : ℚ × ℚ → ℚ × ℚ → TrainType → String := fun _ _ _ => "est"
    let s : RouteData ℕ := { cities := [(1, (0, 0)), (2, (0, 0))],
                             connections := [(1, 2)],
                             travel_times_data := [((1, 2), 30)] }
    let s2 : RouteData ℕ := { cities := [(1, (0, 0)), (2, (0, 0))],
                              connections := [(1, 2)] }
    (RouteData.get_travel_time est s 1 2).2.travel_time_cache = [((1, 2), "30 min")]
    ∧ ((RouteData.get_travel_time est s 1 2).2.update_city_coordinates 1 5 5).2.travel_time_cache
        = [((1, 2), "30 min")]
    ∧ RouteData.get_travel_time est s2 1 2 = ("est", s2) := by
  decide

/-- Claim C3 (amended): the cache is keyed by the unordered (sorted) pair
and a hit returns it for either argument order with the state unchanged;
only override-derived results are ever inserted (a fresh override query
caches its formatted value, and the immediately repeated query — in
either order — is served from the cache); setting an override
invalidates the pair's entry, but updating a city's coordinates leaves
the cache untouched; the estimation path never caches, returning the
state unchanged. -/
theorem travel_time_cache_spec {α : Type} [LinearOrder α]
    (est : ℚ × ℚ → ℚ × ℚ → TrainType → String)
    (s : RouteData α) (c1 c2 n : α) (lon lat : ℚ) (minutes : Int) (t : Int) :
    (∀ v, getKey? s.travel_time_cache (sortedPair c1 c2) = some v →
      RouteData.get_travel_time est s c1 c2 = (v, s)
      ∧ RouteData.get_travel_time est s c2 c1 = (v, s))
    ∧ (getKey? s.travel_time_cache (sortedPair c1 c2) = none →
       getKey? s.travel_times_data (c1, c2) = some t →
        RouteData.get_travel_time est s c1 c2 =
          (RouteData.formatMinutes t,
           { s with travel_time_cache := setKey s.travel_time_cache (sortedPair c1 c2) (RouteData.formatMinutes t) })
        ∧ RouteData.get_travel_time est
            (RouteData.get_travel_time est s c1 c2).2 c2 c1 =
          (RouteData.formatMinutes t, (RouteData.get_travel_time est s c1 c2).2))
    ∧ ((c1, c2) ∈ s.connections →
        (s.update_travel_time c1 c2 minutes).2.travel_time_cache
          = eraseKey s.travel_time_cache (sortedPair c1 c2))
    ∧ (s.update_city_coordinates n lon lat).2.travel_time_cache
        = s.travel_time_cache
    ∧ (getKey? s.travel_time_cache (sortedPair c1 c2) = none →
       getKey? s.travel_times_data (c1, c2) = none →
       getKey? s.travel_times_data (c2, c1) = none →
        (RouteData.get_travel_time est s c1 c2).2 = s) := by
  refine ⟨?_, ?_, ?_, ?_, ?_⟩
  · intro v hv
    constructor
    · simp [RouteData.get_travel_time, hv]
    · rw [sortedPair_comm c1 c2] at hv
      simp [RouteData.get_travel_time, hv]
  · intro hc hd
    have h1 : RouteData.get_travel_time est s c1 c2 =
        (RouteData.formatMinutes t,
         { s with travel_time_cache := setKey s.travel_time_cache (sortedPair c1 c2) (RouteData.formatMinutes t) }) := by
      simp [RouteData.get_travel_time, hc, hd]
    refine ⟨h1, ?_⟩
    rw [h1]
    have hv : getKey? (setKey s.travel_time_cache (sortedPair c1 c2)
        (RouteData.formatMinutes t)) (sortedPair c2 c1)
        = some (RouteData.formatMinutes t) := by
      rw [sortedPair_comm c2 c1]
      exact getKey?_setKey_self _ _ _
    simp [RouteData.get_travel_time, hv]
  · intro h
    simp [RouteData.update_travel_time, h]
  · by_cases h : (getKey? s.cities n).isSome <;>
      simp [RouteData.update_city_coordinates, h]
  · intro hc h1 h2
    simp only [RouteData.get_travel_time, hc, h1, h2]
    cases getKey? s.cities c1 <;> cases getKey? s.cities c2 <;> rfl

/-- Witness for `travel_time_cache_spec`. -/
theorem travel_time_cache_spec_witness :
    let est : ℚ × ℚ → ℚ × ℚ → TrainType → String := fun _ _ _ => "est"
    let s : RouteData ℕ := { cities := [(1, (0, 0)), (2, (0, 0))],
                             connections := [(1, 2)],
                             travel_times_data := [((1, 2), 30)] }
    (RouteData.get_travel_time est s 1 2 =
        (RouteData.formatMinutes 30,
         { s with travel_time_cache := setKey s.travel_time_cache (sortedPair 1 2) (RouteData.formatMinutes 30) })
      ∧ RouteData.get_travel_time est
          (RouteData.get_travel_time est s 1 2).2 2 1 =
        (RouteData.formatMinutes 30, (RouteData.get_travel_time est s 1 2).2))
    ∧ (s.update_travel_time 1 2 99).2.travel_time_cache
        = eraseKey s.travel_time_cache (sortedPair 1 2)
    ∧ (s.update_city_coordinates 1 5 5).2.travel_time_cache
        = s.travel_time_cache := by
  have h := travel_time_cache_spec (α := ℕ) (fun _ _ _ => "est")
    { cities := [(1, (0, 0)), (2, (0, 0))], connections := [(1, 2)],
      travel_times_data := [((1, 2), 30)] } 1 2 1 5 5 99 30
  exact ⟨h.2.1 (by decide) (by decide), h.2.2.1 (by decide), h.2.2.2.1⟩

section RemoveCity

variable {α : Type} [LinearOrder α]

/-- An incident connection's far endpoint differs from the removed city
(given no self-loop at the removed city). -/
theorem otherEnd_ne {conns : List (α × α)} {conn : α × α} {X : α}
    (hmem : conn ∈ conns) (hinc : conn.1 = X ∨ conn.2 = X)
    (hself : (X, X) ∉ conns) : RouteData.otherEnd conn X ≠ X := by
  unfold RouteData.otherEnd
  by_cases h2 : conn.2 = X
  · simp only [h2, if_true]
    intro h1
    apply hself
    have : conn = (X, X) := by
      obtain ⟨a, b⟩ := conn
      simp_all
    exact this ▸ hmem
  · simp only [h2, if_false]
    exact h2

/-- Membership in the `new_connections` list: every element arises from
two distinct incident connections and passes the not-already-connected
guard. -/
theorem mem_reconnections {X : α} {dc conns : List (α × α)} {c : α × α}
    (h : c ∈ RouteData.reconnections X dc conns) :
    ∃ conn1 ∈ dc, ∃ conn2 ∈ dc, conn1 ≠ conn2
      ∧ c = (RouteData.otherEnd conn1 X, RouteData.otherEnd conn2 X)
      ∧ c ∉ conns ∧ (c.2, c.1) ∉ conns := by
  simp only [RouteData.reconnections, List.mem_flatMap, List.mem_filterMap] at h
  obtain ⟨conn1, h1, conn2, h2, hf⟩ := h
  refine ⟨conn1, h1, conn2, h2, ?_⟩
  split_ifs at hf with hne hg
  · injection hf with hf
    subst hf
    exact ⟨hne, rfl, hg.1, hg.2⟩


/-- Reverse direction: two distinct incident connections whose far
endpoints are not yet connected produce their reconnection pair. -/
theorem reconnections_mem {X : α} {dc conns : List (α × α)} {conn1 conn2 : α × α}
    (h1 : conn1 ∈ dc) (h2 : conn2 ∈ dc) (hne : conn1 ≠ conn2)
    (hg1 : (RouteData.otherEnd conn1 X, RouteData.otherEnd conn2 X) ∉ conns)
    (hg2 : (RouteData.otherEnd conn2 X, RouteData.otherEnd conn1 X) ∉ conns) :
    (RouteData.otherEnd conn1 X, RouteData.otherEnd conn2 X)
      ∈ RouteData.reconnections X dc conns := by
  simp only [RouteData.reconnections, List.mem_flatMap, List.mem_filterMap]
  refine ⟨conn1, h1, conn2, h2, ?_⟩
  simp [hne, hg1, hg2]

/-- An incident connection (in either orientation) occurs in the
`directly_connected` filter and its far end is the other city. -/
theorem incident_mem_dc {conns : List (α × α)} {X A : α} (hAX : A ≠ X)
    (hA : (X, A) ∈ conns ∨ (A, X) ∈ conns) :
    ∃ e ∈ conns.filter (fun c => c.1 = X ∨ c.2 = X),
      RouteData.otherEnd e X = A ∧ (e = (X, A) ∨ e = (A, X)) := by
  rcases hA with h | h
  · exact ⟨(X, A), List.mem_filter.mpr ⟨h, by simp⟩,
      by simp [RouteData.otherEnd, hAX], Or.inl rfl⟩
  · exact ⟨(A, X), List.mem_filter.mpr ⟨h, by simp⟩,
      by simp [RouteData.otherEnd], Or.inr rfl⟩

/-- Claim C2: `remove_city` fails (state unchanged) when the city is
absent; on success the city is deleted, every remaining connection avoids
the removed city (no self-loop at it assumed, per the data-model
invariant), each resulting connection is either an old one or a pair not
previously connected in either order, and any two distinct cities that
were each directly connected to the removed city are directly connected
afterwards (star-to-clique). -/
theorem remove_city_spec (s : RouteData α) (X A B : α) :
    ((getKey? s.cities X).isNone = true → s.remove_city X = (false, s))
    ∧ ((getKey? s.cities X).isNone = false →
        (s.remove_city X).1 = true
        ∧ ((s.cities.map Prod.fst).Nodup →
            getKey? (s.remove_city X).2.cities X = none)
        ∧ ((X, X) ∉ s.connections →
            ∀ c ∈ (s.remove_city X).2.connections, c.1 ≠ X ∧ c.2 ≠ X)
        ∧ (∀ c ∈ (s.remove_city X).2.connections,
            c ∈ s.connections ∨ (c ∉ s.connections ∧ (c.2, c.1) ∉ s.connections))
        ∧ (((X, A) ∈ s.connections ∨ (A, X) ∈ s.connections) →
           ((X, B) ∈ s.connections ∨ (B, X) ∈ s.connections) →
           A ≠ X → B ≠ X → A ≠ B →
           ((A, B) ∈ (s.remove_city X).2.connections
             ∨ (B, A) ∈ (s.remove_city X).2.connections))) := by
  constructor
  · intro h
    simp [RouteData.remove_city, h]
  · intro h
    simp only [RouteData.remove_city, h, Bool.false_eq_true, if_false]
    refine ⟨trivial, ?_, ?_, ?_, ?_⟩
    · intro hnd
      exact getKey?_eraseKey_self _ _ hnd
    · intro hself c hc
      rcases List.mem_append.mp hc with hc | hc
      · have := (List.mem_filter.mp hc).2
        simp only [decide_eq_true_eq] at this
        push_neg at this
        exact this
      · obtain ⟨c1, h1, c2, h2, _, hceq, _, _⟩ := mem_reconnections hc
        have m1 := List.mem_filter.mp h1
        have m2 := List.mem_filter.mp h2
        simp only [decide_eq_true_eq] at m1 m2
        subst hceq
        exact ⟨otherEnd_ne m1.1 m1.2 hself, otherEnd_ne m2.1 m2.2 hself⟩
    · intro c hc
      rcases List.mem_append.mp hc with hc | hc
      · exact Or.inl (List.mem_filter.mp hc).1
      · obtain ⟨c1, _, c2, _, _, hceq, hn1, hn2⟩ := mem_reconnections hc
        exact Or.inr ⟨hn1, hn2⟩
    · intro hA hB hAX hBX hAB
      by_cases hex : (A, B) ∈ s.connections ∨ (B, A) ∈ s.connections
      · rcases hex with hex | hex
        · exact Or.inl (List.mem_append_left _
            (List.mem_filter.mpr ⟨hex, by simp [hAX, hBX]⟩))
        · exact Or.inr (List.mem_append_left _
            (List.mem_filter.mpr ⟨hex, by simp [hBX, hAX]⟩))
      · push_neg at hex
        obtain ⟨e1, he1, hoe1, hc1⟩ := incident_mem_dc hAX hA
        obtain ⟨e2, he2, hoe2, hc2⟩ := incident_mem_dc hBX hB
        have hne : e1 ≠ e2 := by
          intro heq
          rcases hc1 with h1 | h1 <;> rcases hc2 with h2 | h2 <;>
            rw [h1, h2] at heq <;> injection heq with u v
          · exact hAB v
          · exact hBX u.symm
          · exact hAX u
          · exact hAB u
        have hg1 : (RouteData.otherEnd e1 X, RouteData.otherEnd e2 X) ∉ s.connections := by
          rw [hoe1, hoe2]; exact hex.1
        have hg2 : (RouteData.otherEnd e2 X, RouteData.otherEnd e1 X) ∉ s.connections := by
          rw [hoe2, hoe1]; exact hex.2
        have hm := reconnections_mem he1 he2 hne hg1 hg2
        rw [hoe1, hoe2] at hm
        exact Or.inl (List.mem_append_right _ hm)

/-- Witness for `remove_city_spec`: removing hub 0 of the star
`0-1, 0-2, 0-3` reconnects 1, 2, 3 pairwise. -/
theorem remove_city_spec_witness :
    let s : RouteData ℕ := { cities := [(0, (0, 0)), (1, (0, 0)), (2, (0, 0)), (3, (0, 0))],
                             connections := [(0, 1), (0, 2), (0, 3)] }
    (s.remove_city 0).1 = true
    ∧ getKey? (s.remove_city 0).2.cities 0 = none
    ∧ ((1, 2) ∈ (s.remove_city 0).2.connections ∨ (2, 1) ∈ (s.remove_city 0).2.connections)
    ∧ ((1, 3) ∈ (s.remove_city 0).2.connections ∨ (3, 1) ∈ (s.remove_city 0).2.connections)
    ∧ ((2, 3) ∈ (s.remove_city 0).2.connections ∨ (3, 2) ∈ (s.remove_city 0).2.connections) := by
  have h12 := (remove_city_spec
    ({ cities := [(0, (0, 0)), (1, (0, 0)), (2, (0, 0)), (3, (0, 0))],
       connections := [(0, 1), (0, 2), (0, 3)] } : RouteData ℕ) 0 1 2).2 (by decide)
  have h13 := (remove_city_spec
    ({ cities := [(0, (0, 0)), (1, (0, 0)), (2, (0, 0)), (3, (0, 0))],
       connections := [(0, 1), (0, 2), (0, 3)] } : RouteData ℕ) 0 1 3).2 (by decide)
  have h23 := (remove_city_spec
    ({ cities := [(0, (0, 0)), (1, (0, 0)), (2, (0, 0)), (3, (0, 0))],
       connections := [(0, 1), (0, 2), (0, 3)] } : RouteData ℕ) 0 2 3).2 (by decide)
  exact ⟨h12.1, h12.2.1 (by decide),
    h12.2.2.2.2 (by decide) (by decide) (by decide) (by decide) (by decide),
    h13.2.2.2.2 (by decide) (by decide) (by decide) (by decide) (by decide),
    h23.2.2.2.2 (by decide) (by decide) (by decide) (by decide) (by decide)⟩

end RemoveCity


/-! ## Terrain factor theorems (claim C6) -/

set_option maxHeartbeats 1000000 in
/-- The fallback classifier never returns "Berlin": the Berlin bounding
box (checked 15th) is contained in the Brandenburg box (checked 14th),
so the Berlin branch is unreachable. -/
theorem region_ne_berlin (lat lon : ℚ) : regionFromLatLon lat lon ≠ "Berlin" := by
  unfold regionFromLatLon
  by_cases h1 : 47.5 ≤ lat ∧ lat ≤ 49.8 ∧ 8.9 ≤ lon ∧ lon ≤ 13.8
  · rw [if_pos h1]
    decide
  · rw [if_neg h1]
    by_cases h2 : 47.5 ≤ lat ∧ lat ≤ 49.8 ∧ 7.5 ≤ lon ∧ lon ≤ 9.8
    · rw [if_pos h2]
      decide
    · rw [if_neg h2]
      by_cases h3 : 49.3 ≤ lat ∧ lat ≤ 51.5 ∧ 7.7 ≤ lon ∧ lon ≤ 10.2
      · rw [if_pos h3]
        decide
      · rw [if_neg h3]
        by_cases h4 : 50.2 ≤ lat ∧ lat ≤ 51.6 ∧ 9.9 ≤ lon ∧ lon ≤ 12.6
        · rw [if_pos h4]
          decide
        · rw [if_neg h4]
          by_cases h5 : 50.1 ≤ lat ∧ lat ≤ 51.7 ∧ 11.8 ≤ lon ∧ lon ≤ 15.0
          · rw [if_pos h5]
            decide
          · rw [if_neg h5]
            by_cases h6 : 48.9 ≤ lat ∧ lat ≤ 50.9 ∧ 6.1 ≤ lon ∧ lon ≤ 8.5
            · rw [if_pos h6]
              decide
            · rw [if_neg h6]
              by_cases h7 : 49.1 ≤ lat ∧ lat ≤ 49.6 ∧ 6.3 ≤ lon ∧ lon ≤ 7.4
              · rw [if_pos h7]
                decide
              · rw [if_neg h7]
                by_cases h8 : 50.3 ≤ lat ∧ lat ≤ 52.5 ∧ 5.8 ≤ lon ∧ lon ≤ 9.5
                · rw [if_pos h8]
                  decide
                · rw [if_neg h8]
                  by_cases h9 : 51.2 ≤ lat ∧ lat ≤ 54.0 ∧ 6.5 ≤ lon ∧ lon ≤ 11.6
                  · rw [if_pos h9]
                    decide
                  · rw [if_neg h9]
                    by_cases h10 : 53.0 ≤ lat ∧ lat ≤ 53.6 ∧ 8.4 ≤ lon ∧ lon ≤ 9.0
                    · rw [if_pos h10]
                      decide
                    · rw [if_neg h10]
                      by_cases h11 : 53.4 ≤ lat ∧ lat ≤ 53.7 ∧ 9.6 ≤ lon ∧ lon ≤ 10.3
                      · rw [if_pos h11]
                        decide
                      · rw [if_neg h11]
                        by_cases h12 : 53.3 ≤ lat ∧ lat ≤ 55.1 ∧ 8.4 ≤ lon ∧ lon ≤ 11.3
                        · rw [if_pos h12]
                          decide
                        · rw [if_neg h12]
                          by_cases h13 : 53.0 ≤ lat ∧ lat ≤ 54.9 ∧ 10.5 ≤ lon ∧ lon ≤ 14.5
                          · rw [if_pos h13]
                            decide
                          · rw [if_neg h13]
                            by_cases h14 : 51.3 ≤ lat ∧ lat ≤ 53.6 ∧ 11.2 ≤ lon ∧ lon ≤ 14.8
                            · rw [if_pos h14]
                              decide
                            · rw [if_neg h14]
                              by_cases h15 : 52.3 ≤ lat ∧ lat ≤ 52.7 ∧ 13.0 ≤ lon ∧ lon ≤ 13.8
                              · obtain ⟨a1, a2, a3, a4⟩ := h15
                                exact absurd ⟨by linarith, by linarith, by linarith, by linarith⟩ h14
                              · rw [if_neg h15]
                                by_cases h16 : 50.8 ≤ lat ∧ lat ≤ 53.1 ∧ 10.5 ≤ lon ∧ lon ≤ 13.2
                                · rw [if_pos h16]
                                  decide
                                · rw [if_neg h16]
                                  by_cases h17 : 52.0 ≤ lat
                                  · rw [if_pos h17]
                                    decide
                                  · rw [if_neg h17]
                                    by_cases h18 : 50.0 ≤ lat
                                    · rw [if_pos h18]
                                      decide
                                    · rw [if_neg h18]
                                      decide

/-- Only the (unreachable) region "Berlin" maps to URBAN terrain. -/
theorem urban_only_berlin (r : String) (hr : r ≠ "Berlin") :
    REGION_TOPOGRAPHY r ≠ some Terrain.URBAN := by
  unfold REGION_TOPOGRAPHY
  by_cases g1 : r = "Bayern"
  · rw [if_pos g1]
    decide
  · rw [if_neg g1]
    by_cases g2 : r = "Baden-Württemberg"
    · rw [if_pos g2]
      decide
    · rw [if_neg g2]
      by_cases g3 : r = "Hessen"
      · rw [if_pos g3]
        decide
      · rw [if_neg g3]
        by_cases g4 : r = "Thüringen"
        · rw [if_pos g4]
          decide
        · rw [if_neg g4]
          by_cases g5 : r = "Sachsen"
          · rw [if_pos g5]
            decide
          · rw [if_neg g5]
            by_cases g6 : r = "Rheinland-Pfalz"
            · rw [if_pos g6]
              decide
            · rw [if_neg g6]
              by_cases g7 : r = "Saarland"
              · rw [if_pos g7]
                decide
              · rw [if_neg g7]
                by_cases g8 : r = "Nordrhein-Westfalen"
                · rw [if_pos g8]
                  decide
                · rw [if_neg g8]
                  by_cases g9 : r = "Niedersachsen"
                  · rw [if_pos g9]
                    decide
                  · rw [if_neg g9]
                    by_cases g10 : r = "Bremen"
                    · rw [if_pos g10]
                      decide
                    · rw [if_neg g10]
                      by_cases g11 : r = "Hamburg"
                      · rw [if_pos g11]
                        decide
                      · rw [if_neg g11]
                        by_cases g12 : r = "Schleswig-Holstein"
                        · rw [if_pos g12]
                          decide
                        · rw [if_neg g12]
                          by_cases g13 : r = "Mecklenburg-Vorpommern"
                          · rw [if_pos g13]
                            decide
                          · rw [if_neg g13]
                            by_cases g14 : r = "Brandenburg"
                            · rw [if_pos g14]
                              decide
                            · rw [if_neg g14]
                              by_cases g15 : r = "Berlin"
                              · exact absurd g15 hr
                              · rw [if_neg g15]
                                by_cases g16 : r = "Sachsen-Anhalt"
                                · rw [if_pos g16]
                                  decide
                                · rw [if_neg g16]
                                  decide

/-- Claim C6: when both endpoints resolve to table regions with
different terrains, the factor is the larger of the two multipliers
(URBAN being unreachable from coordinates, the source's
MOUNTAINS-HILLS-URBAN priority order coincides with the maximum); when
either endpoint resolves to no table region, the fixed default 1.15 is
returned. -/
theorem terrain_factor_spec (c1 c2 : ℚ × ℚ) :
    (∀ t1 t2, REGION_TOPOGRAPHY (get_region_from_coordinates c1) = some t1 →
        REGION_TOPOGRAPHY (get_region_from_coordinates c2) = some t2 →
        t1 ≠ t2 →
        get_terrain_factor c1 c2 = max (GEOGRAPHIC_FACTORS t1) (GEOGRAPHIC_FACTORS t2))
    ∧ ((REGION_TOPOGRAPHY (get_region_from_coordinates c1) = none ∨
        REGION_TOPOGRAPHY (get_region_from_coordinates c2) = none) →
        get_terrain_factor c1 c2 = 1.15) := by
  constructor
  · intro t1 t2 h1 h2 hne
    have hu1 : t1 ≠ Terrain.URBAN := by
      intro he
      exact urban_only_berlin _ (region_ne_berlin c1.2 c1.1) (he ▸ h1)
    have hu2 : t2 ≠ Terrain.URBAN := by
      intro he
      exact urban_only_berlin _ (region_ne_berlin c2.2 c2.1) (he ▸ h2)
    simp only [get_terrain_factor, h1, h2]
    cases t1 <;> cases t2 <;>
      first
        | exact absurd rfl hne
        | exact absurd rfl hu1
        | exact absurd rfl hu2
        | (simp [GEOGRAPHIC_FACTORS]; norm_num [max_def])
  · intro h
    rcases h with h | h
    · cases hh : REGION_TOPOGRAPHY (get_region_from_coordinates c2) <;>
        simp [get_terrain_factor, h, hh]
    · cases hh : REGION_TOPOGRAPHY (get_region_from_coordinates c1) <;>
        simp [get_terrain_factor, h, hh]

/-- Witness for `terrain_factor_spec`: a Bayern point (MOUNTAINS) paired
with a Hessen point (HILLS) yields 1.3 = max(1.3, 1.15); a point outside
every box falls back to the default. -/
theorem terrain_factor_spec_witness :
    (REGION_TOPOGRAPHY (get_region_from_coordinates (11, 48.5)) = some Terrain.MOUNTAINS
      ∧ REGION_TOPOGRAPHY (get_region_from_coordinates (9, 50)) = some Terrain.HILLS
      ∧ get_terrain_factor (11, 48.5) (9, 50)
          = max (GEOGRAPHIC_FACTORS Terrain.MOUNTAINS) (GEOGRAPHIC_FACTORS Terrain.HILLS))
    ∧ (REGION_TOPOGRAPHY (get_region_from_coordinates (20, 60)) = none
      ∧ get_terrain_factor (20, 60) (9, 50) = 1.15) := by
  have hr1 : get_region_from_coordinates (11, 48.5) = "Bayern" := by
    norm_num [get_region_from_coordinates, regionFromLatLon]
  have hr2 : get_region_from_coordinates (9, 50) = "Hessen" := by
    norm_num [get_region_from_coordinates, regionFromLatLon]
  have hr3 : get_region_from_coordinates (20, 60) = "FLAT_REGION" := by
    norm_num [get_region_from_coordinates, regionFromLatLon]
  have hm : REGION_TOPOGRAPHY (get_region_from_coordinates (11, 48.5))
      = some Terrain.MOUNTAINS := by
    rw [hr1]
    simp [REGION_TOPOGRAPHY]
  have hh : REGION_TOPOGRAPHY (get_region_from_coordinates (9, 50))
      = some Terrain.HILLS := by
    rw [hr2]
    simp [REGION_TOPOGRAPHY]
  have hn : REGION_TOPOGRAPHY (get_region_from_coordinates (20, 60)) = none := by
    rw [hr3]
    simp [REGION_TOPOGRAPHY]
  exact ⟨⟨hm, hh, (terrain_factor_spec (11, 48.5) (9, 50)).1 _ _ hm hh (by decide)⟩,
    ⟨hn, (terrain_factor_spec (20, 60) (9, 50)).2 (Or.inl hn)⟩⟩

/-! ## Undo/redo theorems (claim C9) -/

theorem getD_drop {γ : Type} [Inhabited γ] (l : List γ) (i j : ℕ) (d : γ) :
    (l.drop i).getD j d = l.getD (i + j) d := by
  simp [List.getD_eq_getElem?_getD, List.getElem?_drop]

/-- A positive pointer makes `undo` succeed, stepping the pointer back
and restoring the snapshot there. -/
theorem undo_succeeds {α : Type} [LinearOrder α] (mm : RouteManager α)
    (h : 0 < mm.history_position) :
    mm.undo = (true, { mm with
      history_position := mm.history_position - 1
      route_data := (mm.history.getD (mm.history_position - 1).toNat default).1 }) := by
  have hcu : mm.can_undo = true := by
    simp only [RouteManager.can_undo, decide_eq_true_eq]
    exact h
  simp [RouteManager.undo, hcu]

/-- A pointer strictly before the last index makes `redo` succeed,
stepping forward and restoring the snapshot there. -/
theorem redo_succeeds {α : Type} [LinearOrder α] (mm : RouteManager α)
    (h : mm.history_position < (mm.history.length : Int) - 1) :
    mm.redo = (true, { mm with
      history_position := mm.history_position + 1
      route_data := (mm.history.getD (mm.history_position + 1).toNat default).1 }) := by
  have hcr : mm.can_redo = true := by
    simp only [RouteManager.can_redo, decide_eq_true_eq]
    exact h
  simp [RouteManager.redo, hcr]

/-- Undo/redo mechanics on any manager whose pointer sits at the end of
a history with at least two entries: undo steps to the second-to-last
snapshot, redo returns to the last. -/
theorem undo_redo_at_end {α : Type} [LinearOrder α] (mm : RouteManager α)
    (hp : mm.history_position = (mm.history.length : Int) - 1)
    (hl : 2 ≤ mm.history.length) :
    mm.undo.1 = true
    ∧ mm.undo.2.route_data = (mm.history.getD (mm.history.length - 2) default).1
    ∧ mm.undo.2.redo.1 = true
    ∧ mm.undo.2.redo.2.route_data
        = (mm.history.getD (mm.history.length - 1) default).1 := by
  have h1 := undo_succeeds mm (by rw [hp]; omega)
  have hidx1 : (mm.history_position - 1).toNat = mm.history.length - 2 := by
    rw [hp]
    omega
  rw [h1, hidx1]
  have h2 := redo_succeeds
    { mm with
      history_position := mm.history_position - 1
      route_data := (mm.history.getD (mm.history.length - 2) default).1 }
    (by show mm.history_position - 1 < (mm.history.length : Int) - 1
        rw [hp]
        omega)
  have hidx2 : (mm.history_position - 1 + 1).toNat = mm.history.length - 1 := by
    rw [hp]
    omega
  refine ⟨rfl, rfl, ?_, ?_⟩
  · rw [h2]
  · rw [h2]
    show (mm.history.getD (mm.history_position - 1 + 1).toNat default).1 = _
    rw [hidx2]

/-- Claim C9: after a snapshotted mutation (`save_state` on the mutated
data) from a state whose pointer is at the end of history and whose last
snapshot matches the live data by content — as holds right after any
snapshotted operation — `undo` succeeds and restores the pre-mutation
connection set, `redo` then restores the post-mutation set; `undo` fails
at pointer 0 and `redo` fails at the last index, both leaving the state
unchanged. -/
theorem undo_redo_spec {α : Type} [LinearOrder α]
    (m : RouteManager α) (d : RouteData α) (desc : String)
    (hpos : m.history_position = (m.history.length : Int) - 1)
    (hne : m.history ≠ [])
    (hlast : (m.history.getD (m.history.length - 1) default).1.connections
        = m.route_data.connections) :
    (RouteManager.save_state { m with route_data := d } desc).undo.1 = true
    ∧ (RouteManager.save_state { m with route_data := d } desc).undo.2.route_data.connections
        = m.route_data.connections
    ∧ (RouteManager.save_state { m with route_data := d } desc).undo.2.redo.1 = true
    ∧ (RouteManager.save_state { m with route_data := d } desc).undo.2.redo.2.route_data.connections
        = d.connections
    ∧ (∀ m0 : RouteManager α, m0.history_position = 0 →
        RouteManager.undo m0 = (false, m0))
    ∧ (∀ m0 : RouteManager α, m0.history_position = (m0.history.length : Int) - 1 →
        RouteManager.redo m0 = (false, m0)) := by
  have hL : 1 ≤ m.history.length := List.length_pos.mpr hne
  have hC : ¬ ((m.history_position : Int) < (m.history.length : Int) - 1) := by
    rw [hpos]
    omega
  have hm2 : RouteManager.save_state { m with route_data := d } desc =
      { m with route_data := d,
               history :=
                 if (m.history ++ [(d, desc)]).length > MAX_HISTORY_SIZE then
                   (m.history ++ [(d, desc)]).drop
                     ((m.history ++ [(d, desc)]).length - MAX_HISTORY_SIZE)
                 else m.history ++ [(d, desc)],
               history_position :=
                 ((if (m.history ++ [(d, desc)]).length > MAX_HISTORY_SIZE then
                   (m.history ++ [(d, desc)]).drop
                     ((m.history ++ [(d, desc)]).length - MAX_HISTORY_SIZE)
                 else m.history ++ [(d, desc)]).length : Int) - 1 } := by
    simp only [RouteManager.save_state, hC, if_false]
  rw [hm2]
  generalize hh2 : (if (m.history ++ [(d, desc)]).length > MAX_HISTORY_SIZE then
      (m.history ++ [(d, desc)]).drop
        ((m.history ++ [(d, desc)]).length - MAX_HISTORY_SIZE)
    else m.history ++ [(d, desc)]) = h2
  have hlen2 : 2 ≤ h2.length := by
    rw [← hh2]
    by_cases htrim : (m.history ++ [(d, desc)]).length > MAX_HISTORY_SIZE
    · rw [if_pos htrim, List.length_drop]
      simp only [List.length_append, List.length_cons, List.length_nil] at htrim ⊢
      unfold MAX_HISTORY_SIZE at htrim ⊢
      omega
    · rw [if_neg htrim]
      simp only [List.length_append, List.length_cons, List.length_nil]
      omega
  have hpre : h2.getD (h2.length - 2) default
      = m.history.getD (m.history.length - 1) default := by
    rw [← hh2]
    by_cases htrim : (m.history ++ [(d, desc)]).length > MAX_HISTORY_SIZE
    · rw [if_pos htrim, List.length_drop, getD_drop]
      have hidx : (m.history ++ [(d, desc)]).length - MAX_HISTORY_SIZE +
          ((m.history ++ [(d, desc)]).length -
            ((m.history ++ [(d, desc)]).length - MAX_HISTORY_SIZE) - 2)
          = m.history.length - 1 := by
        simp only [List.length_append, List.length_cons, List.length_nil] at htrim ⊢
        unfold MAX_HISTORY_SIZE at htrim ⊢
        omega
      rw [hidx]
      exact List.getD_append _ _ _ _ (by omega)
    · rw [if_neg htrim]
      have hidx : (m.history ++ [(d, desc)]).length - 2 = m.history.length - 1 := by
        simp only [List.length_append, List.length_cons, List.length_nil]
        omega
      rw [hidx]
      exact List.getD_append _ _ _ _ (by omega)
  have hpost : h2.getD (h2.length - 1) default = (d, desc) := by
    rw [← hh2]
    by_cases htrim : (m.history ++ [(d, desc)]).length > MAX_HISTORY_SIZE
    · rw [if_pos htrim, List.length_drop, getD_drop]
      have hidx : (m.history ++ [(d, desc)]).length - MAX_HISTORY_SIZE +
          ((m.history ++ [(d, desc)]).length -
            ((m.history ++ [(d, desc)]).length - MAX_HISTORY_SIZE) - 1)
          = m.history.length := by
        simp only [List.length_append, List.length_cons, List.length_nil] at htrim ⊢
        unfold MAX_HISTORY_SIZE at htrim ⊢
        omega
      rw [hidx, List.getD_append_right _ _ _ _ (le_refl _)]
      simp
    · rw [if_neg htrim]
      have hidx : (m.history ++ [(d, desc)]).length - 1 = m.history.length := by
        simp only [List.length_append, List.length_cons, List.length_nil]
        omega
      rw [hidx, List.getD_append_right _ _ _ _ (le_refl _)]
      simp
  have hmain := undo_redo_at_end
    { m with route_data := d, history := h2,
             history_position := (h2.length : Int) - 1 } rfl hlen2
  obtain ⟨u1, u2, u3, u4⟩ := hmain
  refine ⟨u1, ?_, u3, ?_, ?_, ?_⟩
  · rw [u2]
    show (h2.getD (h2.length - 2) default).1.connections = m.route_data.connections
    rw [hpre]
    exact hlast
  · rw [u4]
    show (h2.getD (h2.length - 1) default).1.connections = d.connections
    rw [hpost]
  · intro m0 h0
    have hcu : m0.can_undo = false := by
      simp [RouteManager.can_undo, h0]
    simp [RouteManager.undo, hcu]
  · intro m0 h0
    have hcr : m0.can_redo = false := by
      simp only [RouteManager.can_redo, h0, decide_eq_false_iff_not]
      omega
    simp [RouteManager.redo, hcr]

/-- Witness for `undo_redo_spec`: one snapshotted mutation on a
single-entry history. -/
theorem undo_redo_spec_witness :
    let rd1 : RouteData ℕ := { connections := [(1, 2)] }
    let d : RouteData ℕ := { connections := [(1, 2), (2, 3)] }
    let m : RouteManager ℕ :=
      { route_data := rd1, history := [(rd1, "init")], history_position := 0 }
    (RouteManager.save_state { m with route_data := d } "op").undo.1 = true
    ∧ (RouteManager.save_state { m with route_data := d } "op").undo.2.route_data.connections
        = m.route_data.connections
    ∧ (RouteManager.save_state { m with route_data := d } "op").undo.2.redo.1 = true
    ∧ (RouteManager.save_state { m with route_data := d } "op").undo.2.redo.2.route_data.connections
        = d.connections := by
  have h := undo_redo_spec
    ({ route_data := { connections := [(1, 2)] },
       history := [({ connections := [(1, 2)] }, "init")],
       history_position := 0 } : RouteManager ℕ)
    { connections := [(1, 2), (2, 3)] } "op"
    (by decide) (by decide) (by decide)
  exact ⟨h.1, h.2.1, h.2.2.1, h.2.2.2.1⟩

/-! ## Merge theorems (claim C8) -/

/-- Two ordered pairs denote distinct unordered pairs. -/
def UDistinct {α : Type} (p q : α × α) : Prop := q ≠ p ∧ q ≠ (p.2, p.1)

section MergeLemmas

variable {α : Type} [DecidableEq α]

/-- `add_segment` appends a genuinely new unordered pair. -/
theorem add_segment_fresh (b : RouteBranch α) (c1 c2 : α)
    (h1 : (c1, c2) ∉ b.route_segments) (h2 : (c2, c1) ∉ b.route_segments) :
    b.add_segment c1 c2
      = { b with route_segments := b.route_segments ++ [(c1, c2)] } := by
  simp [RouteBranch.add_segment, h1, h2]

/-- Folding `add_segment` over a list of unordered-pairwise-distinct
segments, all fresh for the accumulator, appends them all in order. -/
theorem foldl_add_segment (b : RouteBranch α) (xs : List (α × α))
    (hfresh : ∀ x ∈ xs, x ∉ b.route_segments ∧ (x.2, x.1) ∉ b.route_segments)
    (hpw : xs.Pairwise UDistinct) :
    xs.foldl (fun bb seg => bb.add_segment seg.1 seg.2) b
      = { b with route_segments := b.route_segments ++ xs } := by
  induction xs generalizing b with
  | nil => simp
  | cons x t ih =>
    have hx := hfresh x (List.mem_cons_self x t)
    rw [List.foldl_cons, add_segment_fresh b x.1 x.2 hx.1 hx.2]
    have hpwc := List.pairwise_cons.mp hpw
    rw [ih]
    · simp
    · intro y hy
      have hxy := hpwc.1 y hy
      have hyf := hfresh y (List.mem_cons_of_mem x hy)
      constructor
      · simp only [List.mem_append, List.mem_singleton]
        rintro (h | h)
        · exact hyf.1 h
        · exact hxy.1 h
      · simp only [List.mem_append, List.mem_singleton]
        rintro (h | h)
        · exact hyf.2 h
        · apply hxy.2
          obtain ⟨y1, y2⟩ := y
          obtain ⟨x1, x2⟩ := x
          simp only [Prod.mk.injEq] at h ⊢
          exact ⟨h.2, h.1⟩
    · exact hpwc.2

/-- `save_state` does not touch the branch dict or active pointer. -/
theorem save_state_preserves {β : Type} [LinearOrder β] (mm : RouteManager β)
    (desc : String) :
    (mm.save_state desc).branches = mm.branches
    ∧ (mm.save_state desc).active_branch_id = mm.active_branch_id := ⟨rfl, rfl⟩

end MergeLemmas

/-- The three-stage segment construction of `merge_branches` on a seed
branch with empty segments yields exactly the concatenation plus the
connecting edge. -/
theorem merge_fold_eq {α : Type} [DecidableEq α]
    (b1s b2s : List (α × α)) (city1 city2 : α) (seed : RouteBranch α)
    (hseed : seed.route_segments = [])
    (hpw1 : b1s.Pairwise UDistinct)
    (hpw2 : b2s.Pairwise UDistinct)
    (hdisj : ∀ p ∈ b1s, ∀ q ∈ b2s, UDistinct p q)
    (hnew1 : (city1, city2) ∉ b1s ∧ (city2, city1) ∉ b1s)
    (hnew2 : (city1, city2) ∉ b2s ∧ (city2, city1) ∉ b2s) :
    (b2s.foldl (fun b seg => b.add_segment seg.1 seg.2)
      (b1s.foldl (fun b seg => b.add_segment seg.1 seg.2) seed)).add_segment
        city1 city2
    = { seed with route_segments := b1s ++ b2s ++ [(city1, city2)] } := by
  rw [foldl_add_segment seed b1s (by simp [hseed]) hpw1]
  rw [foldl_add_segment _ b2s ?hf hpw2]
  case hf =>
    intro x hx
    show x ∉ seed.route_segments ++ b1s ∧ (x.2, x.1) ∉ seed.route_segments ++ b1s
    rw [hseed, List.nil_append]
    constructor
    · intro hmem
      exact (hdisj x hmem x hx).1 rfl
    · intro hmem
      apply (hdisj (x.2, x.1) hmem x hx).2
      rfl
  rw [add_segment_fresh]
  · rw [hseed]
    simp [List.append_assoc]
  · show (city1, city2) ∉ (seed.route_segments ++ b1s) ++ b2s
    rw [hseed, List.nil_append]
    simp only [List.mem_append]
    rintro (h | h)
    · exact hnew1.1 h
    · exact hnew2.1 h
  · show (city2, city1) ∉ (seed.route_segments ++ b1s) ++ b2s
    rw [hseed, List.nil_append]
    simp only [List.mem_append]
    rintro (h | h)
    · exact hnew1.2 h
    · exact hnew2.2 h

/-- Claim C8: `merge_branches` on two known branches containing the
respective junction cities, with unordered-disjoint duplicate-free edge
sets and a genuinely new connecting edge, succeeds and produces a branch
whose segment list is exactly the concatenation plus the connecting edge
(so its connection count is `|b1| + |b2| + 1` and it holds no unordered
duplicate), has branch 1 as primary and branch 2 as secondary parent,
and is registered as a child of both parents. -/
theorem merge_branches_spec {α : Type} [LinearOrder α] [ToString α]
    (m : RouteManager α) (branch1_id branch2_id : Nat) (city1 city2 : α)
    (branch1 branch2 : RouteBranch α)
    (hb1 : getKey? m.branches branch1_id = some branch1)
    (hb2 : getKey? m.branches branch2_id = some branch2)
    (hc1 : branch1.contains_city city1 = true)
    (hc2 : branch2.contains_city city2 = true)
    (hpw1 : branch1.route_segments.Pairwise UDistinct)
    (hpw2 : branch2.route_segments.Pairwise UDistinct)
    (hdisj : ∀ p ∈ branch1.route_segments, ∀ q ∈ branch2.route_segments,
        UDistinct p q)
    (hnew1 : (city1, city2) ∉ branch1.route_segments
        ∧ (city2, city1) ∉ branch1.route_segments)
    (hnew2 : (city1, city2) ∉ branch2.route_segments
        ∧ (city2, city1) ∉ branch2.route_segments)
    (hfresh : getKey? m.branches m.next_id = none) :
    (m.merge_branches branch1_id branch2_id city1 city2).1 = true
    ∧ (getKey? (m.merge_branches branch1_id branch2_id city1 city2).2.branches
        m.next_id).map RouteBranch.route_segments
        = some (branch1.route_segments ++ branch2.route_segments ++ [(city1, city2)])
    ∧ (branch1.route_segments ++ branch2.route_segments ++ [(city1, city2)]).length
        = branch1.route_segments.length + branch2.route_segments.length + 1
    ∧ (getKey? (m.merge_branches branch1_id branch2_id city1 city2).2.branches
        m.next_id).map RouteBranch.parent_id = some (some branch1.id)
    ∧ (getKey? (m.merge_branches branch1_id branch2_id city1 city2).2.branches
        m.next_id).map (fun b => b.secondary_parent) = some (some branch2.id)
    ∧ (getKey? (m.merge_branches branch1_id branch2_id city1 city2).2.branches
        branch1_id).map RouteBranch.child_ids = some (branch1.child_ids ++ [m.next_id])
    ∧ (getKey? (m.merge_branches branch1_id branch2_id city1 city2).2.branches
        branch2_id).map RouteBranch.child_ids = some (branch2.child_ids ++ [m.next_id])
    ∧ (branch1.route_segments ++ branch2.route_segments
        ++ [(city1, city2)]).Pairwise UDistinct := by
  -- the two branch ids are distinct (a shared id would make the two
  -- nonempty edge sets equal, contradicting unordered disjointness)
  have hne12 : branch1_id ≠ branch2_id := by
    intro he
    obtain ⟨p, hp, _⟩ := List.any_eq_true.mp hc1
    rw [he, hb2] at hb1
    obtain rfl := Option.some_inj.mp hb1
    exact (hdisj p hp p hp).1 rfl
  have hid1 : branch1_id ≠ m.next_id := by
    intro he
    rw [he, hfresh] at hb1
    cases hb1
  have hid2 : branch2_id ≠ m.next_id := by
    intro he
    rw [he, hfresh] at hb2
    cases hb2
  have hsb : ∀ (mm : RouteManager α) (ds : String),
      (mm.save_state ds).branches = mm.branches := fun _ _ => rfl
  have hlen : (branch1.route_segments ++ branch2.route_segments
      ++ [(city1, city2)]).length
      = branch1.route_segments.length + branch2.route_segments.length + 1 := by
    simp only [List.length_append, List.length_cons, List.length_nil]
  have hpwall : (branch1.route_segments ++ branch2.route_segments
      ++ [(city1, city2)]).Pairwise UDistinct := by
    rw [List.pairwise_append]
    refine ⟨?_, by simp, ?_⟩
    · rw [List.pairwise_append]
      exact ⟨hpw1, hpw2, hdisj⟩
    · intro p hp q hq
      simp only [List.mem_singleton] at hq
      subst hq
      rcases List.mem_append.mp hp with hp | hp
      · refine ⟨fun he => hnew1.1 (he ▸ hp), fun he => ?_⟩
        apply hnew1.2
        have hp2 : p = (city2, city1) := by
          obtain ⟨p1, p2⟩ := p
          simp only [Prod.mk.injEq] at he ⊢
          exact ⟨he.2.symm, he.1.symm⟩
        exact hp2 ▸ hp
      · refine ⟨fun he => hnew2.1 (he ▸ hp), fun he => ?_⟩
        apply hnew2.2
        have hp2 : p = (city2, city1) := by
          obtain ⟨p1, p2⟩ := p
          simp only [Prod.mk.injEq] at he ⊢
          exact ⟨he.2.symm, he.1.symm⟩
        exact hp2 ▸ hp
  simp only [RouteManager.merge_branches, hb1, hb2, hc1, hc2, not_true,
    Bool.not_eq_true, if_false]
  rw [merge_fold_eq branch1.route_segments branch2.route_segments city1 city2 _
    rfl hpw1 hpw2 hdisj hnew1 hnew2]
  simp only [hsb, getKey?_setKey_ne _ _ _ _ (Ne.symm hid1),
    getKey?_setKey_ne _ _ _ _ (Ne.symm hid2), getKey?_setKey_ne _ _ _ _ hid1,
    getKey?_setKey_ne _ _ _ _ hid2, getKey?_setKey_ne _ _ _ _ hne12,
    getKey?_setKey_ne _ _ _ _ (Ne.symm hne12), getKey?_setKey_self,
    hb1, hb2, Option.map_some']
  exact ⟨trivial, trivial, hlen, trivial, trivial, trivial, trivial, hpwall⟩

instance {α : Type} [DecidableEq α] (p q : α × α) : Decidable (UDistinct p q) := by
  unfold UDistinct
  infer_instance

/-- Witness for `merge_branches_spec`: merging branch 5 (edge 1-2) with
branch 6 (edge 3-4) at cities 2 and 3. -/
theorem merge_branches_spec_witness :
    let b5 : RouteBranch ℕ := { id := 5, name := "X", route_segments := [(1, 2)] }
    let b6 : RouteBranch ℕ := { id := 6, name := "Y", route_segments := [(3, 4)] }
    let m : RouteManager ℕ :=
      { route_data := {}, branches := [(5, b5), (6, b6)],
        history := [({}, "init")], history_position := 0,
        active_branch_id := some 5, next_id := 7 }
    (m.merge_branches 5 6 2 3).1 = true
    ∧ (getKey? (m.merge_branches 5 6 2 3).2.branches 7).map
        RouteBranch.route_segments = some [(1, 2), (3, 4), (2, 3)]
    ∧ (getKey? (m.merge_branches 5 6 2 3).2.branches 7).map
        RouteBranch.parent_id = some (some 5)
    ∧ (getKey? (m.merge_branches 5 6 2 3).2.branches 7).map
        (fun b => b.secondary_parent) = some (some 6)
    ∧ (getKey? (m.merge_branches 5 6 2 3).2.branches 5).map
        RouteBranch.child_ids = some [7]
    ∧ (getKey? (m.merge_branches 5 6 2 3).2.branches 6).map
        RouteBranch.child_ids = some [7] := by
  have h := merge_branches_spec
    ({ route_data := {},
       branches := [(5, { id := 5, name := "X", route_segments := [(1, 2)] }),
                    (6, { id := 6, name := "Y", route_segments := [(3, 4)] })],
       history := [({}, "init")], history_position := 0,
       active_branch_id := some 5, next_id := 7 } : RouteManager ℕ)
    5 6 2 3
    { id := 5, name := "X", route_segments := [(1, 2)] }
    { id := 6, name := "Y", route_segments := [(3, 4)] }
    (by decide) (by decide) (by decide) (by decide)
    (by decide) (by decide) (by decide) (by decide) (by decide) (by decide)
  exact ⟨h.1, h.2.1, h.2.2.2.1, h.2.2.2.2.1, h.2.2.2.2.2.1, h.2.2.2.2.2.2.1⟩

/-! ## Split failure theorems (claim C5) -/

/-- Claim C5 counterexample: splitting a triangle branch at a vertex
fails with "would not create separate branches" (one component remains),
yet two new branch records have been created and registered as children
of the parent — the branch manager's state is not unchanged. -/
theorem split_route_mutates_on_component_failure :
    let tri : RouteBranch ℕ :=
      { id := 0, name := "Main", route_segments := [(1, 2), (2, 3), (1, 3)] }
    let m : RouteManager ℕ :=
      { route_data := {}, branches := [(0, tri)], history := [({}, "init")],
        history_position := 0, active_branch_id := some 0, next_id := 1 }
    (m.split_route 0 1).1 = false
    ∧ (m.split_route 0 1).2.branches.length = m.branches.length + 2
    ∧ (getKey? (m.split_route 0 1).2.branches 0).map RouteBranch.child_ids
        = some [1, 2]
    ∧ (m.split_route 0 1).2.active_branch_id = m.active_branch_id
    ∧ (m.split_route 0 1).2.history = m.history := by
  decide

/-- Claim C5 (amended): `split_route` failures at steps 1-3 (unknown
branch, city absent from the branch, fewer than 2 in-branch neighbors)
leave the manager unchanged; the step-4 failure (fewer than 2 connected
components) returns a failure and leaves the active branch, the history
and every pre-existing branch record's segments intact, but has already
added the two fresh child records (with empty segment lists, the parent
as primary parent) and extended the parent's child list by their ids. -/
theorem split_route_failure_spec {α : Type} [LinearOrder α] [ToString α]
    (m : RouteManager α) (branch_id : Nat) (city : α) :
    (getKey? m.branches branch_id = none →
      m.split_route branch_id city = (false, m))
    ∧ (∀ parent, getKey? m.branches branch_id = some parent →
        parent.contains_city city = false →
        m.split_route branch_id city = (false, m))
    ∧ (∀ parent, getKey? m.branches branch_id = some parent →
        parent.contains_city city = true →
        (parent.get_connected_cities city).length < 2 →
        m.split_route branch_id city = (false, m))
    ∧ (∀ parent, getKey? m.branches branch_id = some parent →
        parent.contains_city city = true →
        ¬ (parent.get_connected_cities city).length < 2 →
        (RouteManager.splitComponents parent.route_segments city
          (parent.get_connected_cities city)).length < 2 →
        getKey? m.branches m.next_id = none →
        getKey? m.branches (m.next_id + 1) = none →
        (m.split_route branch_id city).1 = false
        ∧ (m.split_route branch_id city).2.active_branch_id = m.active_branch_id
        ∧ (m.split_route branch_id city).2.history = m.history
        ∧ (getKey? (m.split_route branch_id city).2.branches m.next_id).map
            RouteBranch.route_segments = some []
        ∧ (getKey? (m.split_route branch_id city).2.branches m.next_id).map
            RouteBranch.parent_id = some (some parent.id)
        ∧ (getKey? (m.split_route branch_id city).2.branches (m.next_id + 1)).map
            RouteBranch.route_segments = some []
        ∧ (getKey? (m.split_route branch_id city).2.branches (m.next_id + 1)).map
            RouteBranch.parent_id = some (some parent.id)
        ∧ (getKey? (m.split_route branch_id city).2.branches branch_id).map
            RouteBranch.child_ids
            = some (parent.child_ids ++ [m.next_id, m.next_id + 1])
        ∧ (m.split_route branch_id city).2.branches.length
            = m.branches.length + 2) := by
  refine ⟨?_, ?_, ?_, ?_⟩
  · intro h
    simp [RouteManager.split_route, h]
  · intro parent hp hcc
    simp [RouteManager.split_route, hp, hcc]
  · intro parent hp hcc hlen
    simp [RouteManager.split_route, hp, hcc, hlen]
  · intro parent hp hcc hlen hcomp hf1 hf2
    have hbne1 : branch_id ≠ m.next_id := by
      intro he
      rw [he, hf1] at hp
      cases hp
    have hbne2 : branch_id ≠ m.next_id + 1 := by
      intro he
      rw [he, hf2] at hp
      cases hp
    have hnn : m.next_id ≠ m.next_id + 1 := by omega
    have hlenb : ∀ v1 v2 v3,
        (setKey (setKey (setKey m.branches m.next_id v1) (m.next_id + 1) v2)
          branch_id v3).length = m.branches.length + 2 := by
      intro v1 v2 v3
      rw [length_setKey_of_some _ _ _ parent]
      · rw [length_setKey_of_none, length_setKey_of_none _ _ _ hf1]
        rw [getKey?_setKey_ne _ _ _ _ hnn]
        exact hf2
      · rw [getKey?_setKey_ne _ _ _ _ (Ne.symm hbne2),
          getKey?_setKey_ne _ _ _ _ (Ne.symm hbne1)]
        exact hp
    simp only [RouteManager.split_route, hp, hcc, hlen, hcomp, if_pos, if_neg,
      not_false_eq_true, not_true, Bool.not_eq_true, if_false, if_true]
    simp only [getKey?_setKey_ne _ _ _ _ (Ne.symm hbne1),
      getKey?_setKey_ne _ _ _ _ (Ne.symm hbne2),
      getKey?_setKey_ne _ _ _ _ hbne1, getKey?_setKey_ne _ _ _ _ hbne2,
      getKey?_setKey_ne _ _ _ _ hnn, getKey?_setKey_ne _ _ _ _ (Ne.symm hnn),
      getKey?_setKey_self, hp, Option.map_some', hlenb]
    exact ⟨trivial, trivial, trivial, trivial, trivial, trivial, trivial,
      trivial, trivial⟩

/-- Witness for `split_route_failure_spec` (step-4 failure on the
triangle branch). -/
theorem split_route_failure_spec_witness :
    let tri : RouteBranch ℕ :=
      { id := 0, name := "Main", route_segments := [(1, 2), (2, 3), (1, 3)] }
    let m : RouteManager ℕ :=
      { route_data := {}, branches := [(0, tri)], history := [({}, "init")],
        history_position := 0, active_branch_id := some 0, next_id := 1 }
    (m.split_route 0 1).1 = false
    ∧ (m.split_route 0 1).2.active_branch_id = m.active_branch_id
    ∧ (m.split_route 0 1).2.history = m.history
    ∧ (getKey? (m.split_route 0 1).2.branches 1).map RouteBranch.route_segments
        = some []
    ∧ (getKey? (m.split_route 0 1).2.branches 0).map RouteBranch.child_ids
        = some [1, 2]
    ∧ (m.split_route 0 1).2.branches.length = m.branches.length + 2 := by
  have h := (split_route_failure_spec
    ({ route_data := {},
       branches := [(0, { id := 0, name := "Main", route_segments := [(1, 2), (2, 3), (1, 3)] })],
       history := [({}, "init")], history_position := 0,
       active_branch_id := some 0, next_id := 1 } : RouteManager ℕ) 0 1).2.2.2
    { id := 0, name := "Main", route_segments := [(1, 2), (2, 3), (1, 3)] }
    (by decide) (by decide) (by decide) (by decide) (by decide) (by decide)
  exact ⟨h.1, h.2.1, h.2.2.1, h.2.2.2.1, h.2.2.2.2.2.2.2.1, h.2.2.2.2.2.2.2.2⟩

/-- The oriented edge list of a simple chain: `(a, a+1), ..., (a+n-1, a+n)`. -/
def chainEdges (a n : ℕ) : List (ℕ × ℕ) := (List.range' a n).map (fun i => (i, i + 1))

/-- The canonical single-chain network on cities `0..N` (with dummy
coordinates), its `N` connections listed in path orientation, and one
break-marker stored as the oriented tuple `(k, k+1)`. -/
def pathRouteData (N k : ℕ) : RouteData ℕ :=
  { cities := (List.range (N + 1)).map (fun i => (i, ((0 : ℚ), (0 : ℚ)))),
    connections := chainEdges 0 N,
    daybreak_connections := [(k, k + 1)] }

theorem chainEdges_concat (a n : ℕ) :
    chainEdges a (n + 1) = chainEdges a n ++ [(a + n, a + n + 1)] := by
  simp [chainEdges, List.range'_concat]

theorem chainEdges_succ (a n : ℕ) :
    chainEdges a (n + 1) = (a, a + 1) :: chainEdges (a + 1) n := by
  simp [chainEdges, List.range'_succ]

theorem chainEdges_length (a n : ℕ) : (chainEdges a n).length = n := by
  simp [chainEdges]

theorem mem_chainEdges {a n x y : ℕ} :
    (x, y) ∈ chainEdges a n ↔ a ≤ x ∧ x < a + n ∧ y = x + 1 := by
  unfold chainEdges
  rw [List.mem_map]
  constructor
  · rintro ⟨i, hi, heq⟩
    rw [List.mem_range'] at hi
    obtain ⟨w, hw, hiw⟩ := hi
    cases heq
    omega
  · rintro ⟨h1, h2, rfl⟩
    refine ⟨x, ?_, rfl⟩
    rw [List.mem_range']
    exact ⟨x - a, by omega, by omega⟩

theorem adjList_append {α : Type} [LinearOrder α] (l1 l2 : List (α × α)) (x : α) :
    RouteData.adjList (l1 ++ l2) x
      = RouteData.adjList l1 x ++ RouteData.adjList l2 x := by
  simp [RouteData.adjList]

/-- Adjacency in the canonical chain: the left neighbor (when it exists)
followed by the right neighbor (when it exists). -/
theorem adj_chain (N j : ℕ) :
    RouteData.adjList (chainEdges 0 N) j
      = (if 1 ≤ j ∧ j ≤ N then [j - 1] else [])
        ++ (if j < N then [j + 1] else []) := by
  induction N with
  | zero =>
    rw [if_neg (by omega), if_neg (by omega)]
    simp [RouteData.adjList, chainEdges]
  | succ n ih =>
    rw [chainEdges_concat, adjList_append, ih]
    have hsingle : RouteData.adjList [(0 + n, 0 + n + 1)] j
        = (if n = j then [n + 1] else []) ++ (if n + 1 = j then [n] else []) := by
      simp [RouteData.adjList]
    rw [hsingle]
    rcases Nat.lt_trichotomy j n with hc | hc | hc
    · by_cases h1 : 1 ≤ j
      · rw [if_pos (by omega), if_pos (by omega), if_neg (by omega),
          if_neg (by omega), if_pos (by omega), if_pos (by omega)]
        simp
      · rw [if_neg (by omega), if_pos (by omega), if_neg (by omega),
          if_neg (by omega), if_neg (by omega), if_pos (by omega)]
        simp
    · subst hc
      by_cases h1 : 1 ≤ j
      · rw [if_pos (by omega), if_neg (by omega), if_pos (by omega),
          if_neg (by omega), if_pos (by omega), if_pos (by omega)]
        simp
      · rw [if_neg (by omega), if_neg (by omega), if_pos (by omega),
          if_neg (by omega), if_neg (by omega), if_pos (by omega)]
        simp
    · by_cases h2 : j = n + 1
      · subst h2
        rw [if_neg (by omega), if_neg (by omega), if_neg (by omega),
          if_pos (by omega), if_pos (by omega), if_neg (by omega)]
        simp
      · rw [if_neg (by omega), if_neg (by omega), if_neg (by omega),
          if_neg (by omega), if_neg (by omega), if_neg (by omega)]
        simp

theorem walkLoop_stack_nil {α : Type} [LinearOrder α]
    (db conns : List (α × α)) (fuel : ℕ) (st : RouteData.WalkState α)
    (h : st.stack = []) : RouteData.walkLoop db conns fuel st = st := by
  obtain ⟨stk, v, c, cs⟩ := st
  simp only at h
  subst h
  cases fuel <;> rfl

theorem chainEdges_one (a : ℕ) : chainEdges a 1 = [(a, a + 1)] := by
  simp [chainEdges, List.range']

theorem stepNeighbor_visited {α : Type} [LinearOrder α]
    (db : List (α × α)) (node nb : α) (st : RouteData.WalkState α)
    (h : (node, nb) ∈ st.visited ∨ (nb, node) ∈ st.visited) :
    RouteData.stepNeighbor db node st nb = st := by
  simp [RouteData.stepNeighbor, h]

theorem stepNeighbor_fresh_break {α : Type} [LinearOrder α]
    (db : List (α × α)) (node nb : α) (st : RouteData.WalkState α)
    (h1 : (node, nb) ∉ st.visited) (h2 : (nb, node) ∉ st.visited)
    (hdb : (node, nb) ∈ db) :
    RouteData.stepNeighbor db node st nb
      = { stack := (nb, some node) :: st.stack,
          visited := st.visited ++ [(node, nb)], chain := [],
          chains := st.chains ++ [st.chain ++ [(node, nb)]] } := by
  simp [RouteData.stepNeighbor, h1, h2, hdb]

theorem stepNeighbor_fresh_nobreak {α : Type} [LinearOrder α]
    (db : List (α × α)) (node nb : α) (st : RouteData.WalkState α)
    (h1 : (node, nb) ∉ st.visited) (h2 : (nb, node) ∉ st.visited)
    (hdb : (node, nb) ∉ db) :
    RouteData.stepNeighbor db node st nb
      = { stack := (nb, some node) :: st.stack,
          visited := st.visited ++ [(node, nb)],
          chain := st.chain ++ [(node, nb)], chains := st.chains } := by
  simp [RouteData.stepNeighbor, h1, h2, hdb]

/-- The walk of `get_route_chains` along the canonical chain, from node
`j ≥ 1` with the first `j` edges already visited: it traverses the
remaining edges in order, flushing the chain buffer exactly when the
break edge `(k, k+1)` (stored in traversal orientation) is crossed. -/
theorem walkLoop_path (N k : ℕ) (hkN : k < N) :
    ∀ n, ∀ j (c : List (ℕ × ℕ)) (cs : List (List (ℕ × ℕ))) (p : Option ℕ)
      (fuel : ℕ), j + n = N → 1 ≤ j → n + 2 ≤ fuel →
    RouteData.walkLoop [(k, k + 1)] (chainEdges 0 N) fuel
      { stack := [(j, p)], visited := chainEdges 0 j, chain := c, chains := cs }
    = { stack := [], visited := chainEdges 0 N,
        chain := if j ≤ k then chainEdges (k + 1) (N - (k + 1))
                 else c ++ chainEdges j (N - j),
        chains := cs ++ if j ≤ k then [c ++ chainEdges j (k + 1 - j)] else [] } := by
  intro n
  induction n with
  | zero =>
    intro j c cs p fuel hjn hj hfuel
    obtain rfl : N = j := by omega
    obtain ⟨f, rfl⟩ : ∃ f, fuel = f + 1 := ⟨fuel - 1, by omega⟩
    simp only [RouteData.walkLoop]
    rw [adj_chain, if_pos (by omega : 1 ≤ N ∧ N ≤ N), if_neg (by omega : ¬ N < N)]
    simp only [List.append_nil, List.foldl_cons, List.foldl_nil]
    have hskip : (N, N - 1) ∈ chainEdges 0 N ∨ (N - 1, N) ∈ chainEdges 0 N :=
      Or.inr (mem_chainEdges.mpr (by omega))
    rw [stepNeighbor_visited _ _ _ _ hskip]
    rw [walkLoop_stack_nil _ _ _ _ rfl]
    rw [if_neg (by omega : ¬ N ≤ k), if_neg (by omega : ¬ N ≤ k)]
    have hz : N - N = 0 := by omega
    rw [hz]
    simp [chainEdges]
  | succ nn ih =>
    intro j c cs p fuel hjn hj hfuel
    have hjN : j < N := by omega
    obtain ⟨f, rfl⟩ : ∃ f, fuel = f + 1 := ⟨fuel - 1, by omega⟩
    simp only [RouteData.walkLoop]
    rw [adj_chain, if_pos (by omega : 1 ≤ j ∧ j ≤ N), if_pos hjN]
    simp only [List.cons_append, List.nil_append, List.foldl_cons, List.foldl_nil]
    have hskip : (j, j - 1) ∈ chainEdges 0 j ∨ (j - 1, j) ∈ chainEdges 0 j :=
      Or.inr (mem_chainEdges.mpr (by omega))
    rw [stepNeighbor_visited _ j (j - 1)
      ({ stack := [], visited := chainEdges 0 j, chain := c, chains := cs } :
        RouteData.WalkState ℕ) hskip]
    have hnv1 : (j, j + 1) ∉ chainEdges 0 j := by
      rw [mem_chainEdges]
      omega
    have hnv2 : (j + 1, j) ∉ chainEdges 0 j := by
      rw [mem_chainEdges]
      omega
    have hvis : chainEdges 0 j ++ [(j, j + 1)] = chainEdges 0 (j + 1) := by
      rw [chainEdges_concat]
      norm_num
    by_cases hjk : j = k
    · subst hjk
      rw [stepNeighbor_fresh_break _ _ _ _ hnv1 hnv2
        (List.mem_singleton.mpr rfl)]
      show RouteData.walkLoop [(j, j + 1)] (chainEdges 0 N) f
          { stack := [(j + 1, some j)], visited := chainEdges 0 j ++ [(j, j + 1)],
            chain := [], chains := cs ++ [c ++ [(j, j + 1)]] } = _
      rw [hvis]
      rw [ih (j + 1) [] (cs ++ [c ++ [(j, j + 1)]]) (some j) f
        (by omega) (by omega) (by omega)]
      rw [if_neg (by omega : ¬ j + 1 ≤ j), if_pos (le_refl j),
        if_pos (le_refl j)]
      rw [show j + 1 - j = 1 from by omega, chainEdges_one]
      simp
    · rw [stepNeighbor_fresh_nobreak _ _ _ _ hnv1 hnv2 (by
        rw [List.mem_singleton]
        intro hmem
        injection hmem with hh1 hh2
        exact hjk hh1)]
      show RouteData.walkLoop [(k, k + 1)] (chainEdges 0 N) f
          { stack := [(j + 1, some j)], visited := chainEdges 0 j ++ [(j, j + 1)],
            chain := c ++ [(j, j + 1)], chains := cs } = _
      rw [hvis]
      rw [ih (j + 1) (c ++ [(j, j + 1)]) cs (some j) f
        (by omega) (by omega) (by omega)]
      by_cases hjk2 : j ≤ k
      · rw [if_pos (by omega : j + 1 ≤ k), if_pos hjk2, if_pos hjk2]
        have h1 : k + 1 - j = (k - j) + 1 := by omega
        have h2 : k + 1 - (j + 1) = k - j := by omega
        rw [h1, h2, chainEdges_succ]
        simp
        all_goals omega
      · rw [if_neg (by omega : ¬ j + 1 ≤ k), if_neg hjk2, if_neg hjk2]
        have h1 : N - j = (N - (j + 1)) + 1 := by omega
        rw [h1, chainEdges_succ]
        simp
        all_goals omega

theorem chainEdges_ne_nil {a n : ℕ} (h : 0 < n) : (chainEdges a n).isEmpty = false := by
  rw [List.isEmpty_eq_false_iff_exists_mem]
  exact ⟨(a, a + 1), mem_chainEdges.mpr (by omega)⟩

theorem walkLoop_cons {α : Type} [LinearOrder α] (db conns : List (α × α))
    (fuel : ℕ) (node : α) (p : Option α) (rest : List (α × Option α))
    (v c : List (α × α)) (cs : List (List (α × α))) :
    RouteData.walkLoop db conns (fuel + 1)
      { stack := (node, p) :: rest, visited := v, chain := c, chains := cs }
    = RouteData.walkLoop db conns fuel
        ((RouteData.adjList conns node).foldl (RouteData.stepNeighbor db node)
          { stack := rest, visited := v, chain := c, chains := cs }) := rfl

theorem chainEdges_zero_one : chainEdges 0 1 = [(0, 1)] := by
  rw [chainEdges_one]

/-- The full walk from city 0 on the canonical chain with break edge
`(k, k+1)`, `k + 1 < N`: two chains come out, split after edge `k`. -/
theorem walk_chain_path (N k : ℕ) (hk : k + 1 < N) :
    RouteData.walk_chain [(k, k + 1)] (chainEdges 0 N) 0 [] []
      = (chainEdges 0 N,
         [chainEdges 0 (k + 1), chainEdges (k + 1) (N - (k + 1))]) := by
  unfold RouteData.walk_chain
  rw [show 2 * (chainEdges 0 N).length + 2 = (2 * N + 1) + 1 from by
    rw [chainEdges_length]]
  rw [walkLoop_cons]
  rw [adj_chain, if_neg (by omega : ¬ (1 ≤ 0 ∧ 0 ≤ N)),
    if_pos (by omega : 0 < N)]
  simp only [List.nil_append, List.foldl_cons, List.foldl_nil, Nat.zero_add]
  by_cases hk0 : k = 0
  · subst hk0
    rw [stepNeighbor_fresh_break _ _ _ _ (by simp) (by simp)
      (by rw [List.mem_singleton])]
    rw [show RouteData.WalkState.mk (α := ℕ) ((1, some 0) :: [])
        ([] ++ [(0, 1)]) [] ([] ++ [[] ++ [(0, 1)]])
        = { stack := [(1, some 0)], visited := chainEdges 0 1, chain := [],
            chains := [[(0, 1)]] } from by
      rw [chainEdges_zero_one]
      simp]
    rw [walkLoop_path N 0 (by omega) (N - 1) 1 [] [[(0, 1)]] (some 0)
      (2 * N + 1) (by omega) (by omega) (by omega)]
    rw [if_neg (by omega : ¬ 1 ≤ 0), if_neg (by omega : ¬ 1 ≤ 0)]
    simp only [List.nil_append, List.append_nil,
      chainEdges_ne_nil (by omega : 0 < N - (0 + 1))]
    rw [show (0 : ℕ) + 1 = 1 from rfl, ← chainEdges_zero_one]
    simp
  · rw [stepNeighbor_fresh_nobreak _ _ _ _ (by simp) (by simp)
      (by rw [List.mem_singleton]
          intro hmem
          injection hmem with hh1 hh2
          exact hk0 hh1.symm)]
    rw [show RouteData.WalkState.mk (α := ℕ) ((1, some 0) :: [])
        ([] ++ [(0, 1)]) ([] ++ [(0, 1)]) []
        = { stack := [(1, some 0)], visited := chainEdges 0 1,
            chain := chainEdges 0 1, chains := [] } from by
      rw [chainEdges_zero_one]
      simp]
    rw [walkLoop_path N k (by omega) (N - 1) 1 (chainEdges 0 1) [] (some 0)
      (2 * N + 1) (by omega) (by omega) (by omega)]
    rw [if_pos (by omega : 1 ≤ k), if_pos (by omega : 1 ≤ k)]
    simp only [List.nil_append,
      chainEdges_ne_nil (by omega : 0 < N - (k + 1))]
    have hch : chainEdges 0 1 ++ chainEdges 1 (k + 1 - 1) = chainEdges 0 (k + 1) := by
      rw [chainEdges_zero_one, show k + 1 - 1 = k from by omega, chainEdges_succ]
      simp
    rw [hch]
    simp

/-- Cities already covered by visited edges are skipped by the outer loop. -/
theorem chainStep_skip {α : Type} [LinearOrder α] (db conns : List (α × α)) :
    ∀ (l : List α) (acc : List (α × α) × List (List (α × α))),
    (∀ x ∈ l, x ∈ acc.1.flatMap (fun p => [p.1, p.2])) →
    l.foldl (RouteData.chainStep db conns) acc = acc := by
  intro l
  induction l with
  | nil =>
    intro acc h
    rfl
  | cons x t ih =>
    intro acc h
    rw [List.foldl_cons]
    have hstep : RouteData.chainStep db conns acc x = acc := by
      unfold RouteData.chainStep
      rw [if_neg]
      rintro ⟨hnot, _⟩
      exact hnot (h x (List.mem_cons_self x t))
    rw [hstep]
    exact ih acc (fun y hy => h y (List.mem_cons_of_mem x hy))

/-- Claim C1 counterexample: in the three-city chain `0-1-2` whose only
break-marker is recorded as `(1, 0)` — the reverse of the stored
connection orientation `(0, 1)`, hence "in either endpoint order" per
the claim — the decomposition yields a single chain of both connections
instead of the claimed two chains. -/
theorem decompose_reversed_marker_one_chain :
    let s : RouteData ℕ := { cities := [(0, (0, 0)), (1, (0, 0)), (2, (0, 0))],
                             connections := [(0, 1), (1, 2)],
                             daybreak_connections := [(1, 0)] }
    s.connections.length = 2
    ∧ s.daybreak_connections = [(1, 0)]
    ∧ (0, 1) ∈ s.connections
    ∧ s.is_daybreak 0 1 = true
    ∧ s.get_route_chains = [[(0, 1), (1, 2)]]
    ∧ (s.get_route_chains).length = 1 := by
  decide

/-- Claim C1 (amended): on the canonical single chain of `N` connections
`(0,1), ..., (N-1,N)` with exactly one break-marker, stored in the
orientation in which the traversal crosses it (`(k, k+1)`) and not on
the final edge (`k + 1 < N`), `get_route_chains` returns exactly two
chains — the first `k+1` edges, closed at the marked edge, and the
remaining edges from its far endpoint — whose connection counts sum to
`N`. -/
theorem path_decomposition (N k : ℕ) (hk : k + 1 < N) :
    (pathRouteData N k).get_route_chains
      = [chainEdges 0 (k + 1), chainEdges (k + 1) (N - (k + 1))]
    ∧ (chainEdges 0 (k + 1)).length
        + (chainEdges (k + 1) (N - (k + 1))).length = N := by
  constructor
  case right =>
    rw [chainEdges_length, chainEdges_length]
    omega
  unfold RouteData.get_route_chains pathRouteData
  simp only [List.map_map]
  rw [show (List.map (Prod.fst ∘ fun i => (i, ((0 : ℚ), (0 : ℚ))))
      (List.range (N + 1))) = List.range (N + 1) from by
    rw [show (Prod.fst ∘ fun i : ℕ => (i, ((0 : ℚ), (0 : ℚ)))) = id from rfl]
    exact List.map_id _]
  rw [List.range_eq_range', List.range'_succ]
  rw [List.foldl_cons]
  have hstep0 : RouteData.chainStep [(k, k + 1)] (chainEdges 0 N) ([], []) 0
      = (chainEdges 0 N,
         [chainEdges 0 (k + 1), chainEdges (k + 1) (N - (k + 1))]) := by
    unfold RouteData.chainStep
    rw [if_pos]
    · exact walk_chain_path N k hk
    · constructor
      · simp
      · rw [RouteData.adjHasKey, List.any_eq_true]
        refine ⟨(0, 1), mem_chainEdges.mpr (by omega), by simp⟩
  rw [hstep0]
  rw [chainStep_skip]
  · intro x hx
    rw [List.mem_range'] at hx
    obtain ⟨i, hi, rfl⟩ := hx
    rw [List.mem_flatMap]
    refine ⟨(i, i + 1), mem_chainEdges.mpr (by omega), ?_⟩
    simp only [List.mem_cons, List.mem_singleton]
    omega

theorem path_decomposition_witness :
    0 + 1 < 3
    ∧ ((pathRouteData 3 0).get_route_chains
        = [chainEdges 0 1, chainEdges 1 2]
      ∧ (chainEdges 0 1).length + (chainEdges 1 2).length = 3) :=
  ⟨by decide, path_decomposition 3 0 (by decide)⟩
